import Mathlib

/-!
# exprom-disruptive-plugin: event grouping, series projection, streaming windows

A shallow embedding of the Go sources

* `pkg/plugin/database/types.go` (the records),
* `pkg/plugin/database/database_wrapper.go` (`QueryEvents`, `queryDevices`, `toBsonArray`),
* `pkg/plugin/frames.go` (`getValueFromEvent`, `deviceToFrame`),
* `pkg/plugin/plugin.go` (`RunStream`),

followed by the properties established about them.

Conventions of the embedding.

* Go pointers to records that are never written after construction (`*Device`, `*Event`,
  `*Project`, `*DeviceWithEvents`) are the records themselves.  The one record that is written
  through a pointer, `*ProjectWithDevices`, is addressed by its position in the `projects`
  slice (every allocated record is appended to that slice at once, so position = address).
* A Go `map[string]V` is an association list with at most one entry per key.  Its iteration
  order is unspecified in Go; wherever the code ranges over a map the order is a parameter.
* `float64` values are never computed with, only copied; they are kept as bit patterns.
* `time.Time` is an instant (nanoseconds since the Unix epoch) together with the offset from
  UTC, in seconds, that its location prescribes.
-/

namespace Exprom

/-! ## Primitive types -/

/-- A Go `float64`, kept as its IEEE-754 binary64 bit pattern. -/
structure Float64 where
  bits : Nat
deriving DecidableEq, Repr

/-- The constant `0` of type `float64` (`+0.0`). -/
def Float64.zero : Float64 := ⟨0⟩

/-- The constant `1` of type `float64` (`1.0`, bits `0x3FF0000000000000`). -/
def Float64.one : Float64 := ⟨0x3FF0000000000000⟩

/-- The `float64` value `21.5` (`1.01011b * 2^4`, bits `0x4035800000000000`). -/
def Float64.v21_5 : Float64 := ⟨0x4035800000000000⟩

/-- A Go `time.Time`: the instant in nanoseconds since the Unix epoch and the offset east of
UTC, in seconds, of the value's location. -/
structure Time where
  unixNano : Int
  offset : Int
deriving DecidableEq, Repr

/-- A Go `time.Duration`, in nanoseconds. -/
abbrev Duration := Int

/-- The constant `time.Second`. -/
def Second : Duration := 1000000000

/-- The constant `time.Minute`. -/
def Minute : Duration := 60 * Second

/-- The method `Time.Add`: the instant moves, the location stays. -/
def Time.Add (t : Time) (d : Duration) : Time := { t with unixNano := t.unixNano + d }

/-- The order of instants, `!t.After(u)`: the instant of `t` is not after that of `u`. -/
def Time.le (t u : Time) : Prop := t.unixNano ≤ u.unixNano

instance : DecidableRel Time.le := fun t u => inferInstanceAs (Decidable (t.unixNano ≤ u.unixNano))

/-- The record `backend.TimeRange`. -/
structure TimeRange where
  From : Time
  To : Time
deriving DecidableEq, Repr

/-! ## `Time.Format(time.RFC3339Nano)` -/

/-- The decimal digit `n % 10` as a character. -/
def digitChar (n : Nat) : Char := Char.ofNat (48 + n % 10)

/-- The last `width` decimal digits of `n`, most significant first. -/
def fixedDigits : Nat → Nat → List Char
  | 0, _ => []
  | width + 1, n => fixedDigits width (n / 10) ++ [digitChar n]

/-- Go's `appendInt`: a sign for a negative value, then all decimal digits of the magnitude,
padded with zeros to at least `width` characters. -/
def appendInt (x : Int) (width : Nat) : List Char :=
  let u := x.natAbs
  (if x < 0 then ['-'] else []) ++
    (if u < 10 ^ width then fixedDigits width u else Nat.toDigits 10 u)

/-- The civil date `(year, month, day)` of the day `days` days after 1970-01-01 in the
proleptic Gregorian calendar, the calendar of Go's `Time.Date`. -/
def civilFromDays (days : Int) : Int × Nat × Nat :=
  let z := days + 719468
  let era := z / 146097
  let doe := (z - era * 146097).toNat
  let yoe := (doe - doe / 1460 + doe / 36524 - doe / 146096) / 365
  let doy := doe - (365 * yoe + yoe / 4 - yoe / 100)
  let mp := (5 * doy + 2) / 153
  let d := doy - (153 * mp + 2) / 5 + 1
  let m := if mp < 10 then mp + 3 else mp - 9
  let y := (yoe : Int) + era * 400
  (if m ≤ 2 then y + 1 else y, m, d)

/-- A text without its trailing `'0'` characters. -/
def trimZeros (cs : List Char) : List Char :=
  (cs.reverse.dropWhile (fun c => c = '0')).reverse

/-- The layout element `.999999999`: nothing for a whole second, else the point and the nine
digits of the nanoseconds without their trailing zeros. -/
def appendNano (nanosec : Nat) : List Char :=
  if nanosec = 0 then [] else '.' :: trimZeros (fixedDigits 9 nanosec)

/-- The layout element `Z07:00`: `Z` for offset zero, else sign, hours, colon, minutes of the
offset, whose seconds are cut off towards zero. -/
def appendZone (offset : Int) : List Char :=
  if offset = 0 then ['Z']
  else
    let zone := offset.natAbs / 60
    (if offset ≤ -60 then '-' else '+') ::
      (appendInt (zone / 60) 2 ++ [':'] ++ appendInt (zone % 60) 2)

/-- The call `t.Format(time.RFC3339Nano)`, layout `2006-01-02T15:04:05.999999999Z07:00`. -/
def Time.Format (t : Time) : String :=
  let nanosec := (t.unixNano % 1000000000).toNat
  let secs := t.unixNano / 1000000000 + t.offset
  let civil := civilFromDays (secs / 86400)
  let sod := (secs % 86400).toNat
  String.mk
    (appendInt civil.1 4 ++ ['-'] ++ appendInt civil.2.1 2 ++ ['-'] ++ appendInt civil.2.2 2 ++
      ['T'] ++ appendInt (sod / 3600) 2 ++ [':'] ++ appendInt (sod % 3600 / 60) 2 ++ [':'] ++
      appendInt (sod % 60) 2 ++ appendNano nanosec ++ appendZone t.offset)

/-- The order in which the store compares two BSON strings (simple binary collation): the
first differing character decides, and a proper beginning of a text comes before the text. -/
def textLt : List Char → List Char → Bool
  | _, [] => false
  | [], _ :: _ => true
  | a :: as, b :: bs => decide (a.toNat < b.toNat) || (decide (a.toNat = b.toNat) && textLt as bs)

/-! ## Records of `database/types.go` -/

/-- The record `Filter`. -/
structure Filter where
  Entity : String
  Value : String
deriving DecidableEq, Repr

/-- The record `Project`. -/
structure Project where
  Id : String
  DisplayName : String
  OrganizationName : String
deriving DecidableEq, Repr

/-- The anonymous record `Device.Labels`. -/
structure DeviceLabels where
  Name : String
deriving DecidableEq, Repr

/-- The record `Device` (`Type_` is the field `Type`, a reserved word here). -/
structure Device where
  Id : String
  Labels : DeviceLabels
  ProjectId : String
  Type_ : String
  LastEventTime : Time
deriving DecidableEq, Repr

/-- The anonymous record `Event.Data.Temperature`. -/
structure TemperatureData where
  Value : Float64
deriving DecidableEq, Repr

/-- The anonymous record `Event.Data.ObjectPresent`. -/
structure ObjectPresentData where
  State : String
deriving DecidableEq, Repr

/-- The anonymous record `Event.Data.NetworkStatus`; the two `int32` fields are integers and
each cloud connector is its `Id`. -/
structure NetworkStatusData where
  SignalStrength : Int
  RSSI : Int
  CloudConnectors : List String
deriving DecidableEq, Repr

/-- The anonymous record `Event.Data`. -/
structure EventData where
  Temperature : TemperatureData
  ObjectPresent : ObjectPresentData
  NetworkStatus : NetworkStatusData
deriving DecidableEq, Repr

/-- The record `Event` (`Type_` is the field `Type`, a reserved word here). -/
structure Event where
  Id : String
  DeviceId : String
  ProjectId : String
  Type_ : String
  Timestamp : Time
  Data : EventData
deriving DecidableEq, Repr

/-- The record `DeviceWithEvents`. -/
structure DeviceWithEvents where
  Device : Device
  Events : List Event
deriving DecidableEq, Repr

/-- The record `ProjectWithDevices`. -/
structure ProjectWithDevices where
  Project : Project
  Devices : List DeviceWithEvents
deriving DecidableEq, Repr

/-! ## `frames.go` -/

/-- The values of a `data.Field`: the plugin builds `[]float64` and `[]time.Time` columns. -/
inductive Column where
  | float64s (values : List Float64)
  | times (values : List Time)
deriving DecidableEq, Repr

/-- A `data.Field`: name, labels (`nil` is the empty list) and values. -/
structure Field where
  Name : String
  Labels : List (String × String)
  Values : Column
deriving DecidableEq, Repr

/-- A `data.Frame` as the plugin fills it: name and fields. -/
structure Frame where
  Name : String
  Fields : List Field
deriving DecidableEq, Repr

/-- The function `getValueFromEvent`: the value of the event and whether to skip it. -/
def getValueFromEvent (event : Event) : Float64 × Bool :=
  if event.Type_ = "temperature" then
    (event.Data.Temperature.Value, false)
  else if event.Type_ = "objectPresent" then
    if event.Data.ObjectPresent.State = "NOT_PRESENT" then
      (Float64.zero, false)
    else
      (Float64.one, false)
  else
    -- Unknown event type, skip
    (Float64.zero, true)

/-- One iteration of the loop of `deviceToFrame` over `device.Events`; the state is
`(times, values)`. -/
def frameStep (acc : List Time × List Float64) (ev : Event) : List Time × List Float64 :=
  let (value, skip) := getValueFromEvent ev
  if skip then acc else (acc.1 ++ [ev.Timestamp], acc.2 ++ [value])

/-- The function `deviceToFrame`. -/
def deviceToFrame (project : Project) (device : DeviceWithEvents) : Frame :=
  let frame : Frame := { Name := project.Id, Fields := [] }
  let (times, values) := device.Events.foldl frameStep ([], [])
  let valueField : Field :=
    { Name := "Value", Labels := [("device", device.Device.Labels.Name)], Values := .float64s values }
  let timeField : Field := { Name := "Time", Labels := [], Values := .times times }
  { frame with Fields := frame.Fields ++ [valueField, timeField] }

/-- The `Time` column and the `Value` column of a frame laid out as `deviceToFrame` lays it
out: a field `Value` of floats followed by a field `Time` of times. -/
def Frame.series (f : Frame) : Option (List Time × List Float64) :=
  match f.Fields with
  | [⟨"Value", _, .float64s vs⟩, ⟨"Time", _, .times ts⟩] => some (ts, vs)
  | _ => none

/-! ## Go maps and `strings.Split` -/

/-- A Go `map[string]V`: an association list holding each key at most once. -/
abbrev GoMap (V : Type) := List (String × V)

/-- The lookup `v, ok := m[k]`. -/
def GoMap.get? {V : Type} : GoMap V → String → Option V
  | [], _ => none
  | (k', v) :: rest, k => if k' = k then some v else GoMap.get? rest k

/-- The assignment `m[k] = v`. -/
def GoMap.set {V : Type} : GoMap V → String → V → GoMap V
  | [], k, v => [(k, v)]
  | (k', v') :: rest, k, v => if k' = k then (k, v) :: rest else (k', v') :: GoMap.set rest k v

/-- The keys of a map, each once. -/
def GoMap.keys {V : Type} (m : GoMap V) : List String := m.map Prod.fst

/-- The pieces of a text between the occurrences of the separator `sep`; a text without
separator, the empty text included, is its own single piece. -/
def splitChars (sep : Char) : List Char → List (List Char)
  | [] => [[]]
  | c :: cs =>
    if c = sep then [] :: splitChars sep cs
    else
      match splitChars sep cs with
      | [] => [[c]]
      | w :: ws => (c :: w) :: ws

/-- The call `strings.Split(s, sep)` for a separator of one character. -/
def stringsSplit (s : String) (sep : Char) : List String :=
  (splitChars sep s.data).map String.mk

/-- The function `toBsonArray`: the items, appended one by one to an empty `bson.A`. -/
def toBsonArray (arr : List String) : List String :=
  arr.foldl (fun bsonA item => bsonA ++ [item]) []

/-! ## `database_wrapper.go`: the store -/

/-- A document of the collection `events`: the value of its field `timestamp`, a BSON
string (the bounds of the filter are strings, and the store compares a string only with a
string), and the record `cursor.Decode` makes of the document. -/
structure StoredEvent where
  timestamp : String
  event : Event
deriving DecidableEq, Repr

/-- The part of the `mongo.Client` the plugin reads, database `disruptiveBackup`: the
documents of the collection `devices`, decoded, and those of the collection `events`, each
in the order a cursor without sort lists them. -/
structure Client where
  devices : List Device
  events : List StoredEvent
deriving DecidableEq, Repr

/-- The record `Database` (`open_` is the field `open`, a reserved word here). -/
structure Database where
  client : Client
  open_ : Bool
deriving DecidableEq, Repr

/-- The method `IsConnected`, on a receiver that is not `nil`. -/
def Database.IsConnected (db : Database) : Bool := db.open_

/-- The method `queryDevices`.  A `*string` argument is an `Option String`.  The filter
document starts as `bson.D{{}}` and gets one `$in` condition per argument that is not `nil`;
`Find` returns the documents of the collection meeting every condition, in cursor order.
Driver failures of `Find` and `Decode` are outside the model. -/
def Database.queryDevices (db : Database) (projectIdsCsv deviceIdsCsv : Option String) :
    Except String (List Device) :=
  if !db.IsConnected then
    .error "not connected to any database"
  else
    let projectCond : Device → Bool :=
      match projectIdsCsv with
      | none => fun _ => true
      | some csv => fun d => decide (d.ProjectId ∈ toBsonArray (stringsSplit csv ','))
    let idCond : Device → Bool :=
      match deviceIdsCsv with
      | none => fun _ => true
      | some csv => fun d => decide (d.Id ∈ toBsonArray (stringsSplit csv ','))
    .ok (db.client.devices.filter (fun d => projectCond d && idCond d))

/-! ## `database_wrapper.go`: the grouping of `QueryEvents` -/

/-- One iteration of the cursor loop of `QueryEvents` (lines 206-220): the decoded event is
appended to the bucket of its device, a bucket that is created when missing. -/
def bucketStep (eventsByDeviceId : GoMap (List Event)) (event : Event) : GoMap (List Event) :=
  let list :=
    match eventsByDeviceId.get? event.DeviceId with
    | some l => l
    | none => []
  eventsByDeviceId.set event.DeviceId (list ++ [event])

/-- The map `eventsByDeviceId` after the cursor loop over the decoded events. -/
def eventsByDeviceId (events : List Event) : GoMap (List Event) :=
  events.foldl bucketStep []

/-- One iteration of the loop building `deviceIdsCsv` (lines 225-228); the state is
`(deviceIdsCsv, separator)`. -/
def csvStep (acc : String × String) (id : String) : String × String :=
  (acc.1 ++ (acc.2 ++ id), ",")

/-- The text `deviceIdsCsv` after ranging over the map keys in the order `order`. -/
def deviceIdsCsv (order : List String) : String :=
  (order.foldl csvStep ("", "")).1

/-- The state of the loop over the fetched devices (lines 235-258): the slice `projects` and
the map `projectById`, whose values point into `projects`. -/
structure Grouping where
  projects : List ProjectWithDevices
  projectById : GoMap Nat
deriving DecidableEq, Repr

/-- The expression `eventsByDeviceId[device.Id]`: the bucket, or `nil` when there is none. -/
def bucketOf (buckets : GoMap (List Event)) (id : String) : List Event :=
  (buckets.get? id).getD []

/-- One iteration of the loop over the fetched devices (lines 237-258). -/
def attachStep (buckets : GoMap (List Event)) (st : Grouping) (device : Device) : Grouping :=
  let deviceWithEvents : DeviceWithEvents :=
    { Device := device, Events := bucketOf buckets device.Id }
  let found : Nat × Grouping :=
    match st.projectById.get? device.ProjectId with
    | some project => (project, st)
    | none =>
      let project := st.projects.length
      let record : ProjectWithDevices :=
        { Project :=
            { Id := device.ProjectId, DisplayName := device.ProjectId, OrganizationName := "Org" },
          Devices := [] }
      (project,
        { projects := st.projects ++ [record],
          projectById := st.projectById.set device.ProjectId project })
  { found.2 with
    projects :=
      found.2.projects.modify
        (fun r => { r with Devices := r.Devices ++ [deviceWithEvents] }) found.1 }

/-- The slice `projects` after the loop over the fetched devices: the grouping step of
`QueryEvents` for the buckets `buckets` and the fetched devices `devices`. -/
def attachDevices (buckets : GoMap (List Event)) (devices : List Device) :
    List ProjectWithDevices :=
  (devices.foldl (attachStep buckets) { projects := [], projectById := [] }).projects

/-- The grouping step of `QueryEvents` (lines 205-220 and 235-260) for the decoded events
`events` and the fetched devices `devices`. -/
def grouping (events : List Event) (devices : List Device) : List ProjectWithDevices :=
  attachDevices (eventsByDeviceId events) devices

/-- The method `QueryEvents` from the cursor loop on (lines 205-260): `events` are the
decoded documents the events cursor yields and `order` is the order in which the runtime
ranges over the keys of `eventsByDeviceId`. -/
def Database.QueryEventsFrom (db : Database) (order : List String → List String)
    (events : List Event) : Except String (List ProjectWithDevices) :=
  let buckets := eventsByDeviceId events
  -- Find all devices
  let csv := deviceIdsCsv (order buckets.keys)
  match db.queryDevices none (some csv) with
  | .error err => .error err
  | .ok devices => .ok (attachDevices buckets devices)

/-- The condition `{"timestamp": {"$gte": From, "$lt": To}}` of `mongoFilter`, the bounds
being the texts `Format(time.RFC3339Nano)` gives. -/
def timestampFilter (timerange : TimeRange) (doc : StoredEvent) : Bool :=
  !textLt doc.timestamp.data timerange.From.Format.data &&
    textLt doc.timestamp.data timerange.To.Format.data

/-- The document `mongoFilter` of `QueryEvents` (lines 175-193) as a condition on a stored
event: the filtered field is among the pieces of `filter.Value`, the event type is not
`networkStatus`, and the timestamp is in the window. -/
def mongoFilter (filter : Filter) (timerange : TimeRange) (doc : StoredEvent) : Bool :=
  let filterName := if filter.Entity = "devices" then "device_id" else "project_id"
  let field := if filterName = "device_id" then doc.event.DeviceId else doc.event.ProjectId
  decide (field ∈ toBsonArray (stringsSplit filter.Value ',')) &&
    decide (doc.event.Type_ ≠ "networkStatus") &&
    timestampFilter timerange doc

/-- The documents of a collection that the timestamp condition of `QueryEvents` selects for
a window. -/
def selectWindow (timerange : TimeRange) (docs : List StoredEvent) : List StoredEvent :=
  docs.filter (timestampFilter timerange)

/-- The decoded events the cursor of `QueryEvents` yields (lines 174-211): the documents
meeting `mongoFilter`, sorted by `timestamp` ascending.  Documents with equal timestamps,
whose order the store leaves open, keep their collection order. -/
def Database.findEvents (db : Database) (filter : Filter) (timerange : TimeRange) :
    List Event :=
  ((db.client.events.filter (mongoFilter filter timerange)).insertionSort
    (fun a b => textLt b.timestamp.data a.timestamp.data = false)).map StoredEvent.event

/-- The method `QueryEvents`; `order` is the order in which the runtime ranges over the keys
of `eventsByDeviceId`.  Driver failures of `Find` and `Decode` are outside the model. -/
def Database.QueryEvents (db : Database) (order : List String → List String)
    (filter : Filter) (timerange : TimeRange) : Except String (List ProjectWithDevices) :=
  if !db.IsConnected then
    .error "not connected to any database"
  else
    db.QueryEventsFrom order (db.findEvents filter timerange)

/-! ## `plugin.go`: `RunStream` -/

/-- What the surroundings contribute to one firing of the timer of `RunStream`: the reading
`time.Now()` taken as `preFetch`, the behaviour of `d.database.QueryEvents` at that moment
and the behaviour of `sender.SendFrame` on a frame that is not `nil` (`none` is the `nil`
error).  On the `nil` frame `SendFrame` dereferences it and panics, whatever the
surroundings. -/
structure Tick where
  now : Time
  query : Filter → TimeRange → Except String (List ProjectWithDevices)
  send : Frame → Option String

/-- The case the `select` statement of `RunStream` takes: the context is done, or the
timer fires. -/
inductive Fire where
  | done
  | timer (tick : Tick)

/-- How an iteration of the timer case ends: the query returns an error, `SendFrame` is
called with the `nil` frame and panics, `SendFrame` is handed a frame and returns an error,
or `SendFrame` is handed a frame and succeeds. -/
inductive TickOutcome where
  | queryError (err : String)
  | sendPanic
  | sendError (frame : Frame) (err : String)
  | sent (frame : Frame)
deriving DecidableEq, Repr

/-- The record of one iteration of the timer case: the window handed to `QueryEvents`, how
the iteration ended, and the value of `lastFetch` when it ended. -/
structure TickLog where
  window : TimeRange
  outcome : TickOutcome
  lastFetch : Time
deriving DecidableEq, Repr

/-- The loops of lines 306-311: `frame` is `nil` at first and is overwritten for every device
of every project. -/
def lastFrame (projects : List ProjectWithDevices) : Option Frame :=
  projects.foldl
    (fun frame project =>
      project.Devices.foldl (fun _ device => some (deviceToFrame project.Project device)) frame)
    none

/-- The timer case of `RunStream` (lines 295-319) with the cursor `lastFetch`. -/
def onTick (filter : Filter) (lastFetch : Time) (tick : Tick) : TickLog :=
  let preFetch := tick.now
  let window : TimeRange := { From := lastFetch, To := preFetch.Add Minute }
  match tick.query filter window with
  | .error err => { window := window, outcome := .queryError err, lastFetch := lastFetch }
  | .ok projects =>
    match lastFrame projects with
    | none => { window := window, outcome := .sendPanic, lastFetch := lastFetch }
    | some frame =>
      match tick.send frame with
      | some err => { window := window, outcome := .sendError frame err, lastFetch := lastFetch }
      | none => { window := window, outcome := .sent frame, lastFetch := preFetch }

/-- The loop of `RunStream` (lines 289-321) over the cases the `select` takes in turn; it
returns when the context is done, and it is left for good by the panic of `SendFrame` on the
`nil` frame, which nothing in `RunStream` recovers from. -/
def streamLoop (filter : Filter) : Time → List Fire → List TickLog
  | _, [] => []
  | _, .done :: _ => []
  | lastFetch, .timer tick :: rest =>
    let log := onTick filter lastFetch tick
    if log.outcome = .sendPanic then [log] else log :: streamLoop filter log.lastFetch rest

/-- The method `RunStream`: `path` is `req.Path`, `start` is the reading `time.Now()` that
initialises `lastFetch`, `fires` are the cases the `select` takes in turn.  The result is the
record of the timer iterations, the last of which may be the one that panics, or `none`
when `path[2]` is out of range. -/
def RunStream (path : String) (start : Time) (fires : List Fire) : Option (List TickLog) :=
  match (stringsSplit path '/')[2]? with
  | none => none
  | some deviceId => some (streamLoop { Entity := "devices", Value := deviceId } start fires)

/-- A tick succeeds when its query and its send both succeed. -/
def TickLog.succeeded (log : TickLog) : Bool :=
  match log.outcome with
  | .sent _ => true
  | _ => false

/-- The (device, event) pairs of a hierarchy, project by project and device by device. -/
def pairs (ps : List ProjectWithDevices) : List (Device × Event) :=
  ps.flatMap (fun p => p.Devices.flatMap (fun d => d.Events.map (fun e => (d.Device, e))))

/-! ## Concrete inputs -/

/-- An event record with the payload left at zero values. -/
def mkEvent (id deviceId type : String) (t : Int) (value : Float64) (state : String) : Event :=
  { Id := id, DeviceId := deviceId, ProjectId := "P1", Type_ := type,
    Timestamp := ⟨t, 0⟩,
    Data := { Temperature := ⟨value⟩, ObjectPresent := ⟨state⟩, NetworkStatus := ⟨0, 0, []⟩ } }

/-- A device record. -/
def mkDevice (id project label : String) : Device :=
  { Id := id, Labels := ⟨label⟩, ProjectId := project, Type_ := "", LastEventTime := ⟨0, 0⟩ }

/-- The events of the end-to-end scenario. -/
def scenarioEvents : List Event :=
  [mkEvent "e1" "A" "temperature" 100 Float64.v21_5 "",
   mkEvent "e2" "A" "unknown" 110 Float64.zero "",
   mkEvent "e3" "B" "objectPresent" 105 Float64.zero "NOT_PRESENT"]

/-- The devices of the end-to-end scenario. -/
def scenarioDevices : List Device :=
  [mkDevice "A" "P1" "kitchen", mkDevice "B" "P1" "hall"]

/-- Whether the type of an event is one of the two that `getValueFromEvent` gives a
value: `temperature` or `objectPresent`. -/
def isSeriesType (ev : Event) : Bool :=
  decide (ev.Type_ = "temperature" ∨ ev.Type_ = "objectPresent")

/-- A store for the examples: the two devices of the scenario and three events of device
`A`, the second stamped half a second after the first. -/
def exampleDb : Database :=
  { client :=
      { devices := scenarioDevices,
        events :=
          [⟨"2021-05-16T12:00:00Z", mkEvent "e1" "A" "temperature" 1621166400000000000 Float64.v21_5 ""⟩,
           ⟨"2021-05-16T12:00:00.5Z", mkEvent "e2" "A" "temperature" 1621166400500000000 Float64.one ""⟩,
           ⟨"2021-05-16T12:00:07.25Z", mkEvent "e3" "A" "temperature" 1621166407250000000 Float64.zero ""⟩] },
    open_ := true }

/-- A firing of the timer at the instant `now` (nanoseconds, UTC) against `exampleDb`, the
map being ranged over in the order of its entries; the send succeeds or fails as told. -/
def exampleTick (now : Int) (sendFails : Bool) : Tick :=
  { now := ⟨now, 0⟩,
    query := fun filter timerange => exampleDb.QueryEvents id filter timerange,
    send := fun _ => if sendFails then some "send failed" else none }

/-- A firing of the timer at the instant `now` whose query fails: the store is closed. -/
def closedTick (now : Int) : Tick :=
  { now := ⟨now, 0⟩,
    query := fun filter timerange => { exampleDb with open_ := false }.QueryEvents id filter timerange,
    send := fun _ => none }

/-- The start of the example runs, `2021-05-16T12:00:00Z`. -/
def exampleStart : Time := ⟨1621166400000000000, 0⟩

/-- The filter `RunStream` builds for the path `stream/device/A`. -/
def exampleFilter : Filter := { Entity := "devices", Value := "A" }

/-- A run of two firings, five and ten seconds after the start, both successful, and then
the end of the context. -/
def goodFires : List Fire :=
  [.timer (exampleTick 1621166405000000000 false),
   .timer (exampleTick 1621166410000000000 false), .done]

/-- The record of the first tick of `goodFires`. -/
def goodTick1 : TickLog := onTick exampleFilter exampleStart (exampleTick 1621166405000000000 false)

/-- The record of the second tick of `goodFires`. -/
def goodTick2 : TickLog :=
  onTick exampleFilter goodTick1.lastFetch (exampleTick 1621166410000000000 false)

/-- A run of three firings, five, ten and fifteen seconds after the start: the query of the
first fails, the send of the second fails, the third succeeds. -/
def badFires : List Fire :=
  [.timer (closedTick 1621166405000000000),
   .timer (exampleTick 1621166410000000000 true),
   .timer (exampleTick 1621166415000000000 false)]

/-- The record of the first tick of `badFires`. -/
def badTick1 : TickLog := onTick exampleFilter exampleStart (closedTick 1621166405000000000)

/-- The record of the second tick of `badFires`. -/
def badTick2 : TickLog :=
  onTick exampleFilter badTick1.lastFetch (exampleTick 1621166410000000000 true)

/-- The record of the third tick of `badFires`. -/
def badTick3 : TickLog :=
  onTick exampleFilter badTick2.lastFetch (exampleTick 1621166415000000000 false)

/-! ## Notions used to state the properties of the grouping -/

/-- The invariant of the loop over the fetched devices. -/
def Grouping.Inv (st : Grouping) : Prop :=
  (∀ k i, st.projectById.get? k = some i →
      ∃ p, st.projects[i]? = some p ∧ p.Project.Id = k) ∧
    (∀ p ∈ st.projects, st.projectById.get? p.Project.Id ≠ none) ∧
    (st.projects.map (fun p => p.Project.Id)).Nodup ∧
    (∀ p ∈ st.projects, ∀ dw ∈ p.Devices, dw.Device.ProjectId = p.Project.Id)

/-- The device record the loop attaches for a fetched device. -/
def withEvents (buckets : GoMap (List Event)) (device : Device) : DeviceWithEvents :=
  { Device := device, Events := bucketOf buckets device.Id }

/-- The write `project.Devices = append(project.Devices, deviceWithEvents)`. -/
def pushDevice (dw : DeviceWithEvents) (r : ProjectWithDevices) : ProjectWithDevices :=
  { r with Devices := r.Devices ++ [dw] }

/-- The identifier allow-list `QueryEvents` hands to the device fetch when the map keys are
ranged over in the order `keys`: the keys joined with commas, split again on commas by
`queryDevices`, and copied by `toBsonArray`. -/
def allowList (keys : List String) : List String :=
  toBsonArray (stringsSplit (deviceIdsCsv keys) ',')

/-- The key constraint of the store on the collection `devices`: the field `_id`, which
`Device.Id` decodes, has a different value in every document. -/
def Client.uniqueIds (client : Client) : Prop := (client.devices.map Device.Id).Nodup

instance (client : Client) : Decidable client.uniqueIds :=
  inferInstanceAs (Decidable (client.devices.map Device.Id).Nodup)

/-- A fetched device list: what `queryDevices` returns, for some arguments, on some store
that keeps the key constraint. -/
def Fetched (devices : List Device) : Prop :=
  ∃ (db : Database) (projectIdsCsv deviceIdsCsv : Option String),
    db.client.uniqueIds ∧ db.queryDevices projectIdsCsv deviceIdsCsv = .ok devices

/-- A store holding a device whose identifier is the empty text, and no events. -/
def ghostDb : Database :=
  { client := { devices := [mkDevice "" "P1" "ghost", mkDevice "A" "P1" "kitchen"], events := [] },
    open_ := true }

/-- A window of one minute from the start of the example runs. -/
def exampleWindow : TimeRange := ⟨exampleStart, exampleStart.Add Minute⟩

/-- A window of one minute ending a minute before the start of the example runs. -/
def earlyWindow : TimeRange := ⟨exampleStart.Add (-(2 * Minute)), exampleStart.Add (-Minute)⟩

/-- The instant `2021-05-16T12:00:00Z`. -/
def instant0 : Time := ⟨1621166400000000000, 0⟩

/-- The instant `2021-05-16T12:00:00.5Z`, half a second after `instant0`. -/
def instant1 : Time := ⟨1621166400500000000, 0⟩

/-- The instant `2021-05-16T12:00:01Z`, half a second after `instant1`. -/
def instant2 : Time := ⟨1621166401000000000, 0⟩

/-- A collection holding one event, stamped exactly `instant1`. -/
def boundaryDocs : List StoredEvent :=
  [⟨"2021-05-16T12:00:00.5Z",
    mkEvent "e1" "A" "temperature" 1621166400500000000 Float64.v21_5 ""⟩]

/-- A single event whose device identifier holds a comma. -/
def commaEvents : List Event := [mkEvent "e1" "a,b" "temperature" 100 Float64.v21_5 ""]

/-- The frames the loops of lines 307-311 compute in turn: `deviceToFrame` of every device
of every project, in order. -/
def computedFrames (projects : List ProjectWithDevices) : List Frame :=
  projects.flatMap (fun p => p.Devices.map (fun d => deviceToFrame p.Project d))

/-- A firing of the timer at the instant `now` whose query returns the hierarchy of the
end-to-end scenario, one project with the devices `A` and `B`. -/
def scenarioTick (now : Int) : Tick :=
  { now := ⟨now, 0⟩,
    query := fun _ _ => .ok (grouping scenarioEvents scenarioDevices),
    send := fun _ => none }

/-- An instant a minute after the start of the example runs, after every event of
`exampleDb`. -/
def quietStart : Time := exampleStart.Add Minute

/-- The record of a tick against `exampleDb` five seconds after `quietStart`. -/
def quietTick : TickLog := onTick exampleFilter quietStart (exampleTick 1621166465000000000 false)

/-! ## Properties of `frames.go` -/

theorem foldl_frameStep (evs : List Event) (acc : List Time × List Float64) :
    evs.foldl frameStep acc =
      (acc.1 ++ (evs.filter isSeriesType).map Event.Timestamp,
        acc.2 ++ (evs.filter isSeriesType).map (fun e => (getValueFromEvent e).1)) := by
  induction evs generalizing acc with
  | nil => simp
  | cons e es ih =>
    rw [List.foldl_cons, ih]
    by_cases h1 : e.Type_ = "temperature"
    · simp [frameStep, getValueFromEvent, isSeriesType, h1]
    · by_cases h2 : e.Type_ = "objectPresent"
      · by_cases h3 : e.Data.ObjectPresent.State = "NOT_PRESENT" <;>
          simp [frameStep, getValueFromEvent, isSeriesType, h2, h3]
      · simp [frameStep, getValueFromEvent, isSeriesType, h1, h2]

/-- **C5.** `deviceToFrame` yields the frame named after the project whose `Value` column and
`Time` column hold, in input order, the value `getValueFromEvent` gives and the `Timestamp`
of exactly the events of type `temperature` or `objectPresent`; the two columns have the same
length, and when no event has such a type the frame is still made, with two empty columns. -/
theorem deviceToFrame_columns (project : Project) (device : DeviceWithEvents) :
    deviceToFrame project device =
        { Name := project.Id,
          Fields :=
            [{ Name := "Value", Labels := [("device", device.Device.Labels.Name)],
               Values := .float64s
                 ((device.Events.filter isSeriesType).map (fun e => (getValueFromEvent e).1)) },
             { Name := "Time", Labels := [],
               Values := .times ((device.Events.filter isSeriesType).map Event.Timestamp) }] } ∧
      (deviceToFrame project device).series =
        some ((device.Events.filter isSeriesType).map Event.Timestamp,
          (device.Events.filter isSeriesType).map (fun e => (getValueFromEvent e).1)) ∧
      ((device.Events.filter isSeriesType).map Event.Timestamp).length =
        ((device.Events.filter isSeriesType).map (fun e => (getValueFromEvent e).1)).length ∧
      ((∀ e ∈ device.Events, e.Type_ ≠ "temperature" ∧ e.Type_ ≠ "objectPresent") →
        (deviceToFrame project device).series = some ([], [])) := by
  have hframe : deviceToFrame project device =
        { Name := project.Id,
          Fields :=
            [{ Name := "Value", Labels := [("device", device.Device.Labels.Name)],
               Values := .float64s
                 ((device.Events.filter isSeriesType).map (fun e => (getValueFromEvent e).1)) },
             { Name := "Time", Labels := [],
               Values := .times ((device.Events.filter isSeriesType).map Event.Timestamp) }] } := by
    simp [deviceToFrame, foldl_frameStep]
  refine ⟨hframe, ?_, by simp, ?_⟩
  · rw [hframe]; rfl
  · intro hnone
    have hnil : device.Events.filter isSeriesType = [] := by
      rw [List.filter_eq_nil_iff]
      intro e he
      have := hnone e he
      simp [isSeriesType, this.1, this.2]
    rw [hframe, hnil]; rfl

/-- A device whose only event is of type `networkStatus` gets a frame with empty columns. -/
theorem deviceToFrame_columns_witness :
    (∀ e ∈ (DeviceWithEvents.mk (mkDevice "A" "P1" "kitchen")
        [mkEvent "e9" "A" "networkStatus" 7 Float64.one ""]).Events,
      e.Type_ ≠ "temperature" ∧ e.Type_ ≠ "objectPresent") ∧
    (deviceToFrame ⟨"P1", "P1", "Org"⟩ (DeviceWithEvents.mk (mkDevice "A" "P1" "kitchen")
        [mkEvent "e9" "A" "networkStatus" 7 Float64.one ""])).series = some ([], []) :=
  ⟨by decide,
    (deviceToFrame_columns ⟨"P1", "P1", "Org"⟩ (DeviceWithEvents.mk (mkDevice "A" "P1" "kitchen")
        [mkEvent "e9" "A" "networkStatus" 7 Float64.one ""])).2.2.2 (by decide)⟩

/-- **C6.** For an event of type `objectPresent`, `getValueFromEvent` gives `0.0` when the
state is exactly `NOT_PRESENT` and `1.0` for every other state, and never marks the event as
skipped; the two values differ. -/
theorem getValueFromEvent_objectPresent (event : Event) (h : event.Type_ = "objectPresent") :
    (event.Data.ObjectPresent.State = "NOT_PRESENT" →
        getValueFromEvent event = (Float64.zero, false)) ∧
      (event.Data.ObjectPresent.State ≠ "NOT_PRESENT" →
        getValueFromEvent event = (Float64.one, false)) ∧
      (getValueFromEvent event).2 = false ∧
      Float64.zero ≠ Float64.one := by
  have h1 : event.Type_ ≠ "temperature" := by rw [h]; decide
  refine ⟨?_, ?_, ?_, by decide⟩
  · intro hs; simp [getValueFromEvent, h, hs]
  · intro hs; simp [getValueFromEvent, h, hs]
  · by_cases hs : event.Data.ObjectPresent.State = "NOT_PRESENT" <;>
      simp [getValueFromEvent, h, hs]

/-- The states `NOT_PRESENT`, `PRESENT` and the empty state give `0.0`, `1.0` and `1.0`. -/
theorem getValueFromEvent_objectPresent_witness :
    getValueFromEvent (mkEvent "e" "B" "objectPresent" 105 Float64.v21_5 "NOT_PRESENT") =
        (Float64.zero, false) ∧
      getValueFromEvent (mkEvent "e" "B" "objectPresent" 105 Float64.v21_5 "PRESENT") =
        (Float64.one, false) ∧
      getValueFromEvent (mkEvent "e" "B" "objectPresent" 105 Float64.v21_5 "") =
        (Float64.one, false) :=
  ⟨(getValueFromEvent_objectPresent _ (by decide)).1 (by decide),
    (getValueFromEvent_objectPresent
      (mkEvent "e" "B" "objectPresent" 105 Float64.v21_5 "PRESENT") (by decide)).2.1 (by decide),
    (getValueFromEvent_objectPresent
      (mkEvent "e" "B" "objectPresent" 105 Float64.v21_5 "") (by decide)).2.1 (by decide)⟩

/-- **C7.** The end-to-end scenario: grouping the three events against the two fetched
devices gives the single project `P1` with the devices `A` (label `kitchen`) and `B` (label
`hall`), in this order, and `deviceToFrame` gives `A` the series `([100], [21.5])` and `B` the
series `([105], [0.0])`. -/
theorem scenario_end_to_end :
    (grouping scenarioEvents scenarioDevices).map (fun p => p.Project.Id) = ["P1"] ∧
      (grouping scenarioEvents scenarioDevices).map
          (fun p => p.Devices.map (fun d => (d.Device.Id, d.Device.Labels.Name))) =
        [[("A", "kitchen"), ("B", "hall")]] ∧
      (grouping scenarioEvents scenarioDevices).map
          (fun p => p.Devices.map (fun d => (deviceToFrame p.Project d).series)) =
        [[some ([⟨100, 0⟩], [Float64.v21_5]), some ([⟨105, 0⟩], [Float64.zero])]] := by
  decide

/-! ## Properties of `RunStream` -/

theorem onTick_queryError (filter : Filter) (lastFetch : Time) (tick : Tick) (err : String)
    (hq : tick.query filter ⟨lastFetch, tick.now.Add Minute⟩ = .error err) :
    onTick filter lastFetch tick =
      { window := ⟨lastFetch, tick.now.Add Minute⟩, outcome := .queryError err,
        lastFetch := lastFetch } := by
  simp only [onTick, hq]

theorem onTick_sendPanic (filter : Filter) (lastFetch : Time) (tick : Tick)
    (projects : List ProjectWithDevices)
    (hq : tick.query filter ⟨lastFetch, tick.now.Add Minute⟩ = .ok projects)
    (hf : lastFrame projects = none) :
    onTick filter lastFetch tick =
      { window := ⟨lastFetch, tick.now.Add Minute⟩, outcome := .sendPanic,
        lastFetch := lastFetch } := by
  simp only [onTick, hq, hf]

theorem onTick_sendError (filter : Filter) (lastFetch : Time) (tick : Tick)
    (projects : List ProjectWithDevices) (frame : Frame) (err : String)
    (hq : tick.query filter ⟨lastFetch, tick.now.Add Minute⟩ = .ok projects)
    (hf : lastFrame projects = some frame) (hs : tick.send frame = some err) :
    onTick filter lastFetch tick =
      { window := ⟨lastFetch, tick.now.Add Minute⟩,
        outcome := .sendError frame err, lastFetch := lastFetch } := by
  simp only [onTick, hq, hf, hs]

theorem onTick_sent (filter : Filter) (lastFetch : Time) (tick : Tick)
    (projects : List ProjectWithDevices) (frame : Frame)
    (hq : tick.query filter ⟨lastFetch, tick.now.Add Minute⟩ = .ok projects)
    (hf : lastFrame projects = some frame) (hs : tick.send frame = none) :
    onTick filter lastFetch tick =
      { window := ⟨lastFetch, tick.now.Add Minute⟩,
        outcome := .sent frame, lastFetch := tick.now } := by
  simp only [onTick, hq, hf, hs]

/-- The four ways a tick can go: the query fails, the frame is `nil` and the send panics,
the send fails, or query and send both succeed. -/
theorem onTick_cases (filter : Filter) (lastFetch : Time) (tick : Tick) :
    (∃ err, tick.query filter ⟨lastFetch, tick.now.Add Minute⟩ = .error err ∧
        onTick filter lastFetch tick =
          { window := ⟨lastFetch, tick.now.Add Minute⟩, outcome := .queryError err,
            lastFetch := lastFetch }) ∨
      (∃ projects, tick.query filter ⟨lastFetch, tick.now.Add Minute⟩ = .ok projects ∧
        lastFrame projects = none ∧
        onTick filter lastFetch tick =
          { window := ⟨lastFetch, tick.now.Add Minute⟩, outcome := .sendPanic,
            lastFetch := lastFetch }) ∨
      (∃ projects frame err,
        tick.query filter ⟨lastFetch, tick.now.Add Minute⟩ = .ok projects ∧
        lastFrame projects = some frame ∧ tick.send frame = some err ∧
        onTick filter lastFetch tick =
          { window := ⟨lastFetch, tick.now.Add Minute⟩,
            outcome := .sendError frame err, lastFetch := lastFetch }) ∨
      (∃ projects frame, tick.query filter ⟨lastFetch, tick.now.Add Minute⟩ = .ok projects ∧
        lastFrame projects = some frame ∧ tick.send frame = none ∧
        onTick filter lastFetch tick =
          { window := ⟨lastFetch, tick.now.Add Minute⟩,
            outcome := .sent frame, lastFetch := tick.now }) := by
  cases hq : tick.query filter ⟨lastFetch, tick.now.Add Minute⟩ with
  | error err => exact Or.inl ⟨err, rfl, onTick_queryError _ _ _ _ hq⟩
  | ok projects =>
    cases hf : lastFrame projects with
    | none => exact Or.inr (Or.inl ⟨projects, rfl, hf, onTick_sendPanic _ _ _ _ hq hf⟩)
    | some frame =>
      cases hs : tick.send frame with
      | some err =>
        exact Or.inr (Or.inr (Or.inl
          ⟨projects, frame, err, rfl, hf, hs, onTick_sendError _ _ _ _ _ _ hq hf hs⟩))
      | none =>
        exact Or.inr (Or.inr (Or.inr
          ⟨projects, frame, rfl, hf, hs, onTick_sent _ _ _ _ _ hq hf hs⟩))

theorem onTick_window_From (filter : Filter) (lastFetch : Time) (tick : Tick) :
    (onTick filter lastFetch tick).window.From = lastFetch := by
  rcases onTick_cases filter lastFetch tick with
    ⟨_, _, h⟩ | ⟨_, _, _, h⟩ | ⟨_, _, _, _, _, _, h⟩ | ⟨_, _, _, _, _, h⟩
  · rw [h]
  · rw [h]
  · rw [h]
  · rw [h]

theorem onTick_succeeded (filter : Filter) (lastFetch : Time) (tick : Tick)
    (h : (onTick filter lastFetch tick).succeeded = true) :
    (onTick filter lastFetch tick).window.To =
        (onTick filter lastFetch tick).lastFetch.Add Minute ∧
      (onTick filter lastFetch tick).lastFetch = tick.now := by
  rcases onTick_cases filter lastFetch tick with
    ⟨_, _, e⟩ | ⟨_, _, _, e⟩ | ⟨_, _, _, _, _, _, e⟩ | ⟨_, _, _, _, _, e⟩
  · rw [e] at h
    simp [TickLog.succeeded] at h
  · rw [e] at h
    simp [TickLog.succeeded] at h
  · rw [e] at h
    simp [TickLog.succeeded] at h
  · rw [e]
    exact ⟨rfl, rfl⟩

theorem onTick_failed (filter : Filter) (lastFetch : Time) (tick : Tick)
    (h : (onTick filter lastFetch tick).succeeded = false) :
    (onTick filter lastFetch tick).lastFetch = lastFetch := by
  rcases onTick_cases filter lastFetch tick with
    ⟨_, _, e⟩ | ⟨_, _, _, e⟩ | ⟨_, _, _, _, _, _, e⟩ | ⟨_, _, _, _, _, e⟩
  · rw [e]
  · rw [e]
  · rw [e]
  · rw [e] at h
    simp [TickLog.succeeded] at h

/-- A tick has not succeeded exactly when its query returned an error, its frame was `nil`,
or its send returned an error. -/
theorem onTick_succeeded_false_iff (filter : Filter) (lastFetch : Time) (tick : Tick) :
    (onTick filter lastFetch tick).succeeded = false ↔
      ((∃ err, tick.query filter ⟨lastFetch, tick.now.Add Minute⟩ = .error err) ∨
        (∃ projects, tick.query filter ⟨lastFetch, tick.now.Add Minute⟩ = .ok projects ∧
          lastFrame projects = none) ∨
        ∃ projects frame err,
          tick.query filter ⟨lastFetch, tick.now.Add Minute⟩ = .ok projects ∧
          lastFrame projects = some frame ∧ tick.send frame = some err) := by
  rcases onTick_cases filter lastFetch tick with
    ⟨err, hq, e⟩ | ⟨ps, hq, hf, e⟩ | ⟨ps, frame, err, hq, hf, hs, e⟩ | ⟨ps, frame, hq, hf, hs, e⟩
  · rw [e]; simp [TickLog.succeeded, hq]
  · rw [e]; simp [TickLog.succeeded, hq, hf]
  · rw [e]; simp [TickLog.succeeded, hq, hf, hs]
  · rw [e]; simp [TickLog.succeeded, hq, hf, hs]

theorem streamLoop_timer (filter : Filter) (lastFetch : Time) (tick : Tick)
    (rest : List Fire) :
    streamLoop filter lastFetch (.timer tick :: rest) =
      if (onTick filter lastFetch tick).outcome = .sendPanic then [onTick filter lastFetch tick]
      else onTick filter lastFetch tick ::
        streamLoop filter (onTick filter lastFetch tick).lastFetch rest := by
  simp only [streamLoop]

/-- Every window of the loop starts at the cursor the previous iteration left. -/
theorem streamLoop_next_From (filter : Filter) (fires : List Fire) (lastFetch : Time) (n : Nat)
    (a b : TickLog) (ha : (streamLoop filter lastFetch fires)[n]? = some a)
    (hb : (streamLoop filter lastFetch fires)[n + 1]? = some b) :
    b.window.From = a.lastFetch := by
  induction fires generalizing lastFetch n with
  | nil => simp [streamLoop] at ha
  | cons f rest ih =>
    cases f with
    | done => simp [streamLoop] at ha
    | timer tick =>
      rw [streamLoop_timer] at ha hb
      by_cases hp : (onTick filter lastFetch tick).outcome = .sendPanic
      · simp [hp] at hb
      · simp only [hp, if_false] at ha hb
        cases n with
        | zero =>
          simp at ha
          subst ha
          cases rest with
          | nil => simp [streamLoop] at hb
          | cons g rest2 =>
            cases g with
            | done => simp [streamLoop] at hb
            | timer tick2 =>
              rw [streamLoop_timer] at hb
              by_cases hp2 : (onTick filter (onTick filter lastFetch tick).lastFetch tick2).outcome
                  = .sendPanic
              · simp [hp2] at hb
                subst hb
                exact onTick_window_From _ _ _
              · simp [hp2] at hb
                subst hb
                exact onTick_window_From _ _ _
        | succ m =>
          simp at ha hb
          exact ih _ m ha hb

/-- Every record of the loop is the record of a tick run from some cursor. -/
theorem streamLoop_getElem (filter : Filter) (fires : List Fire) (lastFetch : Time) (n : Nat)
    (a : TickLog) (ha : (streamLoop filter lastFetch fires)[n]? = some a) :
    ∃ cursor tick, a = onTick filter cursor tick := by
  induction fires generalizing lastFetch n with
  | nil => simp [streamLoop] at ha
  | cons f rest ih =>
    cases f with
    | done => simp [streamLoop] at ha
    | timer tick =>
      rw [streamLoop_timer] at ha
      by_cases hp : (onTick filter lastFetch tick).outcome = .sendPanic
      · simp only [hp, if_true] at ha
        cases n with
        | zero =>
          simp at ha
          exact ⟨lastFetch, tick, ha.symm⟩
        | succ m => simp at ha
      · simp only [hp, if_false] at ha
        cases n with
        | zero =>
          simp at ha
          exact ⟨lastFetch, tick, ha.symm⟩
        | succ m =>
          simp at ha
          exact ih _ m ha

/-- The loop runs no tick after the one whose send panics. -/
theorem streamLoop_sendPanic_last (filter : Filter) (fires : List Fire) (lastFetch : Time)
    (n : Nat) (a : TickLog) (ha : (streamLoop filter lastFetch fires)[n]? = some a)
    (hp : a.outcome = .sendPanic) : (streamLoop filter lastFetch fires)[n + 1]? = none := by
  induction fires generalizing lastFetch n with
  | nil => simp [streamLoop] at ha
  | cons f rest ih =>
    cases f with
    | done => simp [streamLoop] at ha
    | timer tick =>
      rw [streamLoop_timer] at ha ⊢
      by_cases hp0 : (onTick filter lastFetch tick).outcome = .sendPanic
      · simp [hp0]
      · simp only [hp0, if_false] at ha ⊢
        cases n with
        | zero =>
          simp at ha
          subst ha
          exact absurd hp hp0
        | succ m =>
          simp only [List.getElem?_cons_succ] at ha ⊢
          exact ih _ m ha

theorem RunStream_eq_some (path : String) (start : Time) (fires : List Fire)
    (log : List TickLog) (h : RunStream path start fires = some log) :
    ∃ filter, log = streamLoop filter start fires := by
  unfold RunStream at h
  split at h
  · simp at h
  · simp at h
    exact ⟨_, h.symm⟩

/-- Every record of a run of `RunStream` is the record of a tick of its loop. -/
theorem RunStream_getElem (path : String) (start : Time) (fires : List Fire)
    (log : List TickLog) (h : RunStream path start fires = some log) (n : Nat) (a : TickLog)
    (ha : log[n]? = some a) : ∃ filter cursor tick, a = onTick filter cursor tick := by
  obtain ⟨filter, rfl⟩ := RunStream_eq_some path start fires log h
  obtain ⟨cursor, tick, e⟩ := streamLoop_getElem filter fires start n a ha
  exact ⟨filter, cursor, tick, e⟩

/-- **C3, as the code has it.** In a run of `RunStream`, when a tick's query and send both
succeed, the window of the next tick starts at that tick's `preFetch`, which is one minute
before the upper bound of that tick's window: the windows of successive successful ticks
leave no gap and overlap by exactly `time.Minute`. -/
theorem RunStream_window_overlap (path : String) (start : Time) (fires : List Fire)
    (log : List TickLog) (h : RunStream path start fires = some log) (n : Nat) (a b : TickLog)
    (ha : log[n]? = some a) (hb : log[n + 1]? = some b) (hs : a.succeeded = true) :
    b.window.From = a.lastFetch ∧ a.window.To = b.window.From.Add Minute ∧
      b.window.From ≠ a.window.To := by
  obtain ⟨filter, rfl⟩ := RunStream_eq_some path start fires log h
  have hfrom := streamLoop_next_From filter fires start n a b ha hb
  obtain ⟨cursor, tick, rfl⟩ := streamLoop_getElem filter fires start n a ha
  have hto := (onTick_succeeded filter cursor tick hs).1
  refine ⟨hfrom, ?_, ?_⟩
  · rw [hfrom]; exact hto
  · rw [hfrom, hto]
    intro hne
    have := congrArg Time.unixNano hne
    simp [Time.Add, Minute, Second] at this

/-- The two successful ticks of `goodFires`: the first window ends one minute after the
second begins. -/
theorem RunStream_window_overlap_witness :
    RunStream "stream/device/A" exampleStart goodFires = some [goodTick1, goodTick2] ∧
      goodTick1.succeeded = true ∧
      goodTick1.window.To = goodTick2.window.From.Add Minute :=
  ⟨by decide, by decide,
    (RunStream_window_overlap "stream/device/A" exampleStart goodFires [goodTick1, goodTick2]
      (by decide) 0 goodTick1 goodTick2 rfl rfl (by decide)).2.1⟩

/-- **C3, as stated, fails.** In the run `goodFires` both ticks succeed; the first queries
the window from `12:00:00` to `12:01:05` and the second the window from `12:00:05` to
`12:01:10`: the lower bound of the second is not the upper bound of the first. -/
theorem RunStream_window_not_contiguous :
    RunStream "stream/device/A" exampleStart goodFires = some [goodTick1, goodTick2] ∧
      goodTick1.succeeded = true ∧ goodTick2.succeeded = true ∧
      goodTick1.window = ⟨⟨1621166400000000000, 0⟩, ⟨1621166465000000000, 0⟩⟩ ∧
      goodTick2.window = ⟨⟨1621166405000000000, 0⟩, ⟨1621166470000000000, 0⟩⟩ ∧
      goodTick2.window.From ≠ goodTick1.window.To := by
  decide

/-- **C4.** In a run of `RunStream`, a tick whose `QueryEvents` call or whose `SendFrame`
call returns an error leaves the cursor `lastFetch` at the lower bound of its own window, so
the next tick queries a window with the same lower bound; and a tick that moves the cursor
is one whose query and send both succeeded. -/
theorem RunStream_failed_tick_keeps_cursor (path : String) (start : Time) (fires : List Fire)
    (log : List TickLog) (h : RunStream path start fires = some log) (n : Nat) (a : TickLog)
    (ha : log[n]? = some a) :
    (((∃ err, a.outcome = .queryError err) ∨ (∃ frame err, a.outcome = .sendError frame err)) →
        a.lastFetch = a.window.From ∧
          ∀ b, log[n + 1]? = some b → b.window.From = a.window.From) ∧
      (a.lastFetch ≠ a.window.From → ∃ frame, a.outcome = .sent frame) := by
  obtain ⟨filter, rfl⟩ := RunStream_eq_some path start fires log h
  have hkeep : a.succeeded = false → a.lastFetch = a.window.From := by
    obtain ⟨cursor, tick, rfl⟩ := streamLoop_getElem filter fires start n a ha
    intro hf
    rw [onTick_failed filter cursor tick hf, onTick_window_From]
  constructor
  · intro hfail
    have hf : a.succeeded = false := by
      rcases hfail with ⟨err, e⟩ | ⟨frame, err, e⟩ <;> simp [TickLog.succeeded, e]
    refine ⟨hkeep hf, ?_⟩
    intro b hb
    rw [streamLoop_next_From filter fires start n a b ha hb]
    exact hkeep hf
  · intro hmoved
    cases ho : a.outcome with
    | queryError err => exact absurd (hkeep (by simp [TickLog.succeeded, ho])) hmoved
    | sendPanic => exact absurd (hkeep (by simp [TickLog.succeeded, ho])) hmoved
    | sendError frame err => exact absurd (hkeep (by simp [TickLog.succeeded, ho])) hmoved
    | sent frame => exact ⟨frame, rfl⟩

/-- The run `badFires`: the query of the first tick fails and the send of the second tick
fails, and all three windows start at the start of the run. -/
theorem RunStream_failed_tick_keeps_cursor_witness :
    RunStream "stream/device/A" exampleStart badFires = some [badTick1, badTick2, badTick3] ∧
      badTick1.outcome = .queryError "not connected to any database" ∧
      (badTick1.lastFetch = badTick1.window.From ∧
        ∀ b, [badTick1, badTick2, badTick3][0 + 1]? = some b →
          b.window.From = badTick1.window.From) :=
  ⟨by decide, by decide,
    (RunStream_failed_tick_keeps_cursor "stream/device/A" exampleStart badFires
      [badTick1, badTick2, badTick3] (by decide) 0 badTick1 rfl).1 (Or.inl ⟨"not connected to any database", by decide⟩)⟩

/-- The windows of the run `badFires`: the three lower bounds are the start of the run. -/
theorem badFires_windows :
    [badTick1, badTick2, badTick3].map (fun l => (l.window, l.succeeded)) =
      [(⟨⟨1621166400000000000, 0⟩, ⟨1621166465000000000, 0⟩⟩, false),
       (⟨⟨1621166400000000000, 0⟩, ⟨1621166470000000000, 0⟩⟩, false),
       (⟨⟨1621166400000000000, 0⟩, ⟨1621166475000000000, 0⟩⟩, true)] := by
  decide

/-! ## Properties of Go maps -/

theorem GoMap.get?_set {V : Type} (m : GoMap V) (k k' : String) (v : V) :
    (m.set k v).get? k' = if k = k' then some v else m.get? k' := by
  induction m with
  | nil => simp [GoMap.set, GoMap.get?]
  | cons kv rest ih =>
    obtain ⟨k0, v0⟩ := kv
    by_cases h0 : k0 = k
    · subst h0
      by_cases h1 : k0 = k' <;> simp [GoMap.set, GoMap.get?, h1]
    · by_cases h1 : k0 = k'
      · subst h1
        simp [GoMap.set, GoMap.get?, h0, Ne.symm h0]
      · simp [GoMap.set, GoMap.get?, h0, h1, ih]

theorem GoMap.get?_eq_none_iff {V : Type} (m : GoMap V) (k : String) :
    m.get? k = none ↔ k ∉ m.keys := by
  induction m with
  | nil => simp [GoMap.get?, GoMap.keys]
  | cons kv rest ih =>
    obtain ⟨k0, v0⟩ := kv
    by_cases h0 : k0 = k
    · simp [GoMap.get?, GoMap.keys, h0]
    · simp only [GoMap.get?, h0, if_false, ih]
      simp [GoMap.keys, Ne.symm h0]

theorem GoMap.keys_set {V : Type} (m : GoMap V) (k : String) (v : V) :
    (m.set k v).keys = if k ∈ m.keys then m.keys else m.keys ++ [k] := by
  induction m with
  | nil => simp [GoMap.set, GoMap.keys]
  | cons kv rest ih =>
    obtain ⟨k0, v0⟩ := kv
    by_cases h0 : k0 = k
    · simp [GoMap.set, GoMap.keys, h0]
    · have ih' : List.map Prod.fst (GoMap.set rest k v) =
          if k ∈ List.map Prod.fst rest then List.map Prod.fst rest
          else List.map Prod.fst rest ++ [k] := ih
      simp only [GoMap.set, h0, if_false, GoMap.keys, List.map_cons, List.mem_cons, ih',
        Ne.symm h0, false_or]
      split <;> simp

theorem GoMap.keys_set_nodup {V : Type} (m : GoMap V) (k : String) (v : V)
    (h : m.keys.Nodup) : (m.set k v).keys.Nodup := by
  rw [GoMap.keys_set]
  split
  · exact h
  · rename_i hk
    rw [List.nodup_append]
    refine ⟨h, List.nodup_singleton k, ?_⟩
    intro a ha hak
    rw [List.mem_singleton] at hak
    exact hk (hak ▸ ha)

theorem GoMap.mem_keys_set {V : Type} (m : GoMap V) (k k' : String) (v : V) :
    k' ∈ (m.set k v).keys ↔ k' = k ∨ k' ∈ m.keys := by
  rw [GoMap.keys_set]
  split
  · rename_i hk
    constructor
    · intro h; exact Or.inr h
    · rintro (h | h)
      · rw [h]; exact hk
      · exact h
  · simp [or_comm]

/-! ## Properties of the buckets -/

theorem bucketOf_bucketStep (m : GoMap (List Event)) (e : Event) (id : String) :
    bucketOf (bucketStep m e) id =
      if e.DeviceId = id then bucketOf m id ++ [e] else bucketOf m id := by
  unfold bucketStep bucketOf
  rw [GoMap.get?_set]
  by_cases h : e.DeviceId = id
  · subst h
    cases hg : m.get? e.DeviceId <;> simp
  · simp [h]

theorem bucketOf_foldl (events : List Event) (m : GoMap (List Event)) (id : String) :
    bucketOf (events.foldl bucketStep m) id =
      bucketOf m id ++ events.filter (fun e => decide (e.DeviceId = id)) := by
  induction events generalizing m with
  | nil => simp
  | cons e es ih =>
    rw [List.foldl_cons, ih, bucketOf_bucketStep]
    by_cases h : e.DeviceId = id <;> simp [h]

/-- The bucket of a device identifier holds the events of that device, in cursor order. -/
theorem bucketOf_eventsByDeviceId (events : List Event) (id : String) :
    bucketOf (eventsByDeviceId events) id = events.filter (fun e => decide (e.DeviceId = id)) := by
  unfold eventsByDeviceId
  rw [bucketOf_foldl]
  simp [bucketOf, GoMap.get?]

theorem keys_bucketStep (m : GoMap (List Event)) (e : Event) (k : String) :
    k ∈ (bucketStep m e).keys ↔ k = e.DeviceId ∨ k ∈ m.keys := by
  unfold bucketStep
  exact GoMap.mem_keys_set _ _ _ _

theorem keys_foldl_bucketStep (events : List Event) (m : GoMap (List Event)) (k : String) :
    k ∈ (events.foldl bucketStep m).keys ↔ k ∈ m.keys ∨ ∃ e ∈ events, e.DeviceId = k := by
  induction events generalizing m with
  | nil => simp
  | cons e es ih =>
    rw [List.foldl_cons, ih, keys_bucketStep]
    constructor
    · rintro ((h | h) | ⟨e', he', h⟩)
      · exact Or.inr ⟨e, List.mem_cons_self _ _, h.symm⟩
      · exact Or.inl h
      · exact Or.inr ⟨e', List.mem_cons_of_mem _ he', h⟩
    · rintro (h | ⟨e', he', h⟩)
      · exact Or.inl (Or.inr h)
      · rcases List.mem_cons.1 he' with rfl | hmem
        · exact Or.inl (Or.inl h.symm)
        · exact Or.inr ⟨e', hmem, h⟩

theorem nodup_keys_foldl_bucketStep (events : List Event) (m : GoMap (List Event))
    (h : m.keys.Nodup) : (events.foldl bucketStep m).keys.Nodup := by
  induction events generalizing m with
  | nil => simpa using h
  | cons e es ih =>
    rw [List.foldl_cons]
    exact ih _ (GoMap.keys_set_nodup _ _ _ h)

/-- The keys of `eventsByDeviceId` are the device identifiers of the events, each once. -/
theorem keys_eventsByDeviceId (events : List Event) :
    (eventsByDeviceId events).keys.Nodup ∧
      ∀ k, k ∈ (eventsByDeviceId events).keys ↔ ∃ e ∈ events, e.DeviceId = k := by
  constructor
  · exact nodup_keys_foldl_bucketStep events [] (by simp [GoMap.keys])
  · intro k
    unfold eventsByDeviceId
    rw [keys_foldl_bucketStep]
    simp [GoMap.keys]

/-! ## Properties of the loop over the fetched devices -/

theorem attachStep_some (buckets : GoMap (List Event)) (st : Grouping) (device : Device)
    (i : Nat) (h : st.projectById.get? device.ProjectId = some i) :
    attachStep buckets st device =
      { projects := st.projects.modify (pushDevice (withEvents buckets device)) i,
        projectById := st.projectById } := by
  simp only [attachStep, h]
  rfl

theorem modify_append_length {α : Type} (f : α → α) (l : List α) (x : α) :
    (l ++ [x]).modify f l.length = l ++ [f x] := by
  induction l with
  | nil => simp
  | cons y ys ih => simp [ih]

theorem attachStep_none (buckets : GoMap (List Event)) (st : Grouping) (device : Device)
    (h : st.projectById.get? device.ProjectId = none) :
    attachStep buckets st device =
      { projects := st.projects ++
          [{ Project :=
               { Id := device.ProjectId, DisplayName := device.ProjectId,
                 OrganizationName := "Org" },
             Devices := [withEvents buckets device] }],
        projectById := st.projectById.set device.ProjectId st.projects.length } := by
  simp only [attachStep, h, modify_append_length]
  rfl

theorem map_modify_of_preserved {α β : Type} (f : α → α) (g : α → β) (h : ∀ x, g (f x) = g x)
    (l : List α) (i : Nat) : (l.modify f i).map g = l.map g := by
  induction l generalizing i with
  | nil => simp
  | cons y ys ih =>
    cases i with
    | zero => simp [h]
    | succ j => simp [ih]

theorem mem_modify {α : Type} (f : α → α) (l : List α) (i : Nat) (x : α)
    (hx : x ∈ l.modify f i) : x ∈ l ∨ ∃ p, l[i]? = some p ∧ x = f p := by
  induction l generalizing i with
  | nil => simp at hx
  | cons y ys ih =>
    cases i with
    | zero =>
      simp at hx
      rcases hx with rfl | hx
      · exact Or.inr ⟨y, by simp, rfl⟩
      · exact Or.inl (List.mem_cons_of_mem _ hx)
    | succ j =>
      simp at hx
      rcases hx with rfl | hx
      · exact Or.inl (List.mem_cons_self _ _)
      · rcases ih j hx with h | ⟨p, hp, e⟩
        · exact Or.inl (List.mem_cons_of_mem _ h)
        · exact Or.inr ⟨p, by simpa using hp, e⟩

theorem flatMap_modify_pushDevice (dw : DeviceWithEvents) (l : List ProjectWithDevices)
    (i : Nat) (hi : i < l.length) :
    ((l.modify (pushDevice dw) i).flatMap ProjectWithDevices.Devices).Perm
      (l.flatMap ProjectWithDevices.Devices ++ [dw]) := by
  induction l generalizing i with
  | nil => simp at hi
  | cons y ys ih =>
    cases i with
    | zero =>
      simp only [List.modify_zero_cons, List.flatMap_cons, pushDevice, List.append_assoc]
      refine List.Perm.append_left _ ?_
      have hmid := (@List.perm_middle _ dw (List.flatMap ys ProjectWithDevices.Devices) []).symm
      simpa using hmid
    | succ j =>
      simp only [List.modify_succ_cons, List.flatMap_cons, List.append_assoc]
      exact List.Perm.append_left _ (ih j (by simpa using hi))

theorem attachStep_inv (buckets : GoMap (List Event)) (st : Grouping) (device : Device)
    (h : st.Inv) : (attachStep buckets st device).Inv := by
  obtain ⟨h1, h2, h3, h4⟩ := h
  cases hg : st.projectById.get? device.ProjectId with
  | some i =>
    rw [attachStep_some buckets st device i hg]
    have hid : ∀ x, (fun p : ProjectWithDevices => p.Project.Id)
        (pushDevice (withEvents buckets device) x) =
        (fun p : ProjectWithDevices => p.Project.Id) x := fun _ => rfl
    refine ⟨?_, ?_, ?_, ?_⟩
    · intro k j hk
      obtain ⟨p, hp, hpk⟩ := h1 k j hk
      simp only [List.getElem?_modify, hp]
      by_cases hij : i = j
      · exact ⟨pushDevice (withEvents buckets device) p, by simp [hij], hpk⟩
      · exact ⟨p, by simp [hij], hpk⟩
    · intro p hp
      rcases mem_modify _ _ _ _ hp with hp | ⟨q, hq, rfl⟩
      · exact h2 p hp
      · exact h2 q (List.getElem?_mem hq)
    · simp only
      rw [map_modify_of_preserved _ _ hid]
      exact h3
    · intro p hp dw hdw
      rcases mem_modify _ _ _ _ hp with hp | ⟨q, hq, rfl⟩
      · exact h4 p hp dw hdw
      · obtain ⟨q', hq', hqk⟩ := h1 _ _ hg
        rw [hq] at hq'
        cases hq'
        simp only [pushDevice, List.mem_append, List.mem_singleton] at hdw
        rcases hdw with hdw | rfl
        · exact h4 q (List.getElem?_mem hq) dw hdw
        · exact hqk.symm
  | none =>
    rw [attachStep_none buckets st device hg]
    refine ⟨?_, ?_, ?_, ?_⟩
    · intro k j hk
      simp only [GoMap.get?_set] at hk
      by_cases hkk : device.ProjectId = k
      · simp only [hkk, if_true, Option.some.injEq] at hk
        subst hk
        exact ⟨_, List.getElem?_concat_length _ _, hkk⟩
      · simp only [hkk, if_false] at hk
        obtain ⟨p, hp, hpk⟩ := h1 k j hk
        refine ⟨p, ?_, hpk⟩
        have hlt : j < st.projects.length := by
          by_contra hge
          rw [List.getElem?_eq_none (by omega)] at hp
          cases hp
        simp only
        rw [List.getElem?_append_left hlt]
        exact hp
    · intro p hp
      simp only [GoMap.get?_set]
      by_cases hkk : device.ProjectId = p.Project.Id
      · simp [hkk]
      · simp only [hkk, if_false]
        simp only [List.mem_append, List.mem_singleton] at hp
        rcases hp with hp | rfl
        · exact h2 p hp
        · exact absurd rfl hkk
    · simp only [List.map_append, List.map_cons, List.map_nil]
      rw [List.nodup_append]
      refine ⟨h3, List.nodup_singleton _, ?_⟩
      intro a ha hb
      rw [List.mem_singleton] at hb
      subst hb
      obtain ⟨p, hp, hpid⟩ := List.mem_map.1 ha
      exact h2 p hp (by simpa [hpid] using hg)
    · intro p hp dw hdw
      simp only [List.mem_append, List.mem_singleton] at hp
      rcases hp with hp | rfl
      · exact h4 p hp dw hdw
      · simp only [List.mem_singleton] at hdw
        subst hdw
        rfl

theorem attachStep_devices (buckets : GoMap (List Event)) (st : Grouping) (device : Device)
    (h : st.Inv) :
    ((attachStep buckets st device).projects.flatMap ProjectWithDevices.Devices).Perm
      (st.projects.flatMap ProjectWithDevices.Devices ++ [withEvents buckets device]) := by
  cases hg : st.projectById.get? device.ProjectId with
  | some i =>
    rw [attachStep_some buckets st device i hg]
    obtain ⟨p, hp, _⟩ := h.1 _ _ hg
    have hlt : i < st.projects.length := by
      by_contra hge
      rw [List.getElem?_eq_none (by omega)] at hp
      cases hp
    exact flatMap_modify_pushDevice _ _ _ hlt
  | none =>
    rw [attachStep_none buckets st device hg]
    simp

theorem foldl_attachStep (buckets : GoMap (List Event)) (devices : List Device) (st : Grouping)
    (h : st.Inv) :
    (devices.foldl (attachStep buckets) st).Inv ∧
      ((devices.foldl (attachStep buckets) st).projects.flatMap ProjectWithDevices.Devices).Perm
        (st.projects.flatMap ProjectWithDevices.Devices ++ devices.map (withEvents buckets)) := by
  induction devices generalizing st with
  | nil => exact ⟨h, by simp⟩
  | cons d ds ih =>
    rw [List.foldl_cons]
    obtain ⟨hinv, hperm⟩ := ih (attachStep buckets st d) (attachStep_inv buckets st d h)
    refine ⟨hinv, hperm.trans ?_⟩
    have := (attachStep_devices buckets st d h).append_right (ds.map (withEvents buckets))
    simpa using this

theorem Grouping.inv_empty : Grouping.Inv { projects := [], projectById := [] } := by
  refine ⟨?_, ?_, ?_, ?_⟩
  · intro k i h; simp [GoMap.get?] at h
  · intro p hp; simp at hp
  · simp
  · intro p hp; simp at hp

/-- What the loop over the fetched devices builds: project identifiers without repetition,
every device under the project its `ProjectId` names, and all in all one device record per
fetched device, holding the bucket of its identifier. -/
theorem attachDevices_spec (buckets : GoMap (List Event)) (devices : List Device) :
    ((attachDevices buckets devices).map (fun p => p.Project.Id)).Nodup ∧
      (∀ p ∈ attachDevices buckets devices, ∀ dw ∈ p.Devices,
        dw.Device.ProjectId = p.Project.Id) ∧
      ((attachDevices buckets devices).flatMap ProjectWithDevices.Devices).Perm
        (devices.map (withEvents buckets)) := by
  obtain ⟨hinv, hperm⟩ := foldl_attachStep buckets devices _ Grouping.inv_empty
  exact ⟨hinv.2.2.1, hinv.2.2.2, by simpa using hperm⟩

/-! ## Properties of the grouping -/

theorem filter_append_filter_perm {α : Type} (p q : α → Bool) (l : List α)
    (h : ∀ x ∈ l, ¬(p x = true ∧ q x = true)) :
    (l.filter p ++ l.filter q).Perm (l.filter (fun x => p x || q x)) := by
  induction l with
  | nil => simp
  | cons x xs ih =>
    have ih' := ih (fun y hy => h y (List.mem_cons_of_mem _ hy))
    have hx := h x (List.mem_cons_self _ _)
    cases hp : p x <;> cases hq : q x
    · simpa [List.filter_cons, hp, hq] using ih'
    · simp only [List.filter_cons, hp, hq, Bool.false_or, if_true]
      exact List.perm_middle.trans (List.Perm.cons _ ih')
    · simp only [List.filter_cons, hp, hq, Bool.or_false, if_true, List.cons_append]
      exact List.Perm.cons _ ih'
    · exact absurd ⟨hp, hq⟩ hx

theorem flatMap_filter_perm (events : List Event) (ids : List String) (h : ids.Nodup) :
    (ids.flatMap (fun id => events.filter (fun e => decide (e.DeviceId = id)))).Perm
      (events.filter (fun e => decide (e.DeviceId ∈ ids))) := by
  induction ids with
  | nil => simp
  | cons id rest ih =>
    rw [List.nodup_cons] at h
    rw [List.flatMap_cons]
    refine ((ih h.2).append_left _).trans ?_
    refine (filter_append_filter_perm _ _ events ?_).trans ?_
    · intro e _ hboth
      simp only [decide_eq_true_eq] at hboth
      exact h.1 (hboth.1 ▸ hboth.2)
    · refine List.Perm.of_eq (List.filter_congr ?_)
      intro e _
      simp [List.mem_cons]

/-- The pairs of the hierarchy, for any fetched devices: each fetched device, as often as it
is listed, with each event of its bucket. -/
theorem pairs_grouping (events : List Event) (devices : List Device) :
    (pairs (grouping events devices)).Perm
      (devices.flatMap (fun d =>
        (events.filter (fun e => decide (e.DeviceId = d.Id))).map (fun e => (d, e)))) := by
  unfold pairs grouping
  rw [← List.flatMap_assoc]
  refine ((attachDevices_spec (eventsByDeviceId events) devices).2.2.flatMap_right _).trans ?_
  rw [List.flatMap_map]
  refine List.Perm.of_eq (List.flatMap_congr ?_)
  intro d _
  simp [withEvents, bucketOf_eventsByDeviceId]

theorem map_snd_pairs_grouping (events : List Event) (devices : List Device) :
    ((pairs (grouping events devices)).map Prod.snd).Perm
      ((devices.map Device.Id).flatMap
        (fun id => events.filter (fun e => decide (e.DeviceId = id)))) := by
  refine ((pairs_grouping events devices).map Prod.snd).trans ?_
  rw [List.map_flatMap, List.flatMap_map]
  refine List.Perm.of_eq (List.flatMap_congr ?_)
  intro d _
  simp

/-! ## Properties of the allow-list -/

theorem foldl_toBsonArray (arr acc : List String) :
    arr.foldl (fun bsonA item => bsonA ++ [item]) acc = acc ++ arr := by
  induction arr generalizing acc with
  | nil => simp
  | cons x xs ih => simp [ih]

/-- The function `toBsonArray` copies its argument. -/
theorem toBsonArray_eq (arr : List String) : toBsonArray arr = arr := by
  simp [toBsonArray, foldl_toBsonArray]

theorem foldl_csvStep (ids : List String) (acc : String) :
    ((ids.foldl csvStep (acc, ",")).1).data =
      acc.data ++ ids.flatMap (fun id => ',' :: id.data) := by
  induction ids generalizing acc with
  | nil => simp
  | cons x xs ih =>
    simp only [List.foldl_cons, csvStep]
    rw [ih]
    simp [String.data_append]

theorem deviceIdsCsv_cons (id : String) (ids : List String) :
    (deviceIdsCsv (id :: ids)).data = id.data ++ ids.flatMap (fun x => ',' :: x.data) := by
  simp only [deviceIdsCsv, List.foldl_cons, csvStep]
  rw [foldl_csvStep]
  simp [String.data_append]

theorem splitChars_ne_nil (sep : Char) (cs : List Char) : splitChars sep cs ≠ [] := by
  cases cs with
  | nil => simp [splitChars]
  | cons c cs =>
    unfold splitChars
    split
    · simp
    · split <;> simp

theorem splitChars_of_not_mem (sep : Char) (w : List Char) (h : sep ∉ w) :
    splitChars sep w = [w] := by
  induction w with
  | nil => simp [splitChars]
  | cons c cs ih =>
    have hc : c ≠ sep := fun e => h (e ▸ List.mem_cons_self _ _)
    have hcs : sep ∉ cs := fun hm => h (List.mem_cons_of_mem _ hm)
    simp [splitChars, hc, ih hcs]

theorem splitChars_append_sep (sep : Char) (w rest : List Char) (h : sep ∉ w) :
    splitChars sep (w ++ sep :: rest) = w :: splitChars sep rest := by
  induction w with
  | nil => simp [splitChars]
  | cons c cs ih =>
    have hc : c ≠ sep := fun e => h (e ▸ List.mem_cons_self _ _)
    have hcs : sep ∉ cs := fun hm => h (List.mem_cons_of_mem _ hm)
    simp [splitChars, hc, ih hcs]

theorem splitChars_join (sep : Char) (w : List Char) (ws : List (List Char))
    (hw : sep ∉ w) (hws : ∀ x ∈ ws, sep ∉ x) :
    splitChars sep (w ++ ws.flatMap (fun x => sep :: x)) = w :: ws := by
  induction ws generalizing w with
  | nil => simpa using splitChars_of_not_mem sep w hw
  | cons y ys ih =>
    simp only [List.flatMap_cons, List.cons_append]
    rw [splitChars_append_sep sep w _ hw,
      ih y (hws y (List.mem_cons_self _ _)) (fun x hx => hws x (List.mem_cons_of_mem _ hx))]

/-- The allow-list of no keys is the single empty identifier. -/
theorem allowList_nil : allowList [] = [""] := by
  decide

/-- Splitting the joined keys gives the keys back when there is a key and no key holds a
comma. -/
theorem allowList_eq (keys : List String) (hne : keys ≠ [])
    (hcomma : ∀ k ∈ keys, ',' ∉ k.data) : allowList keys = keys := by
  cases keys with
  | nil => exact absurd rfl hne
  | cons k ks =>
    unfold allowList
    rw [toBsonArray_eq]
    unfold stringsSplit
    rw [deviceIdsCsv_cons]
    have hflat : ks.flatMap (fun x => ',' :: x.data) =
        (ks.map String.data).flatMap (fun x => ',' :: x) := by
      rw [List.flatMap_map]
    rw [hflat, splitChars_join ',' k.data (ks.map String.data)
      (hcomma k (List.mem_cons_self _ _))]
    · have hid : (String.mk ∘ String.data) = id := funext fun _ => rfl
      simp [hid]
    · intro x hx
      obtain ⟨s, hs, rfl⟩ := List.mem_map.1 hx
      exact hcomma s (List.mem_cons_of_mem _ hs)

/-- The method `QueryEvents` on an open store: the grouping of the events found against
the devices whose identifier is in the allow-list. -/
theorem QueryEvents_eq_grouping (db : Database) (order : List String → List String)
    (filter : Filter) (timerange : TimeRange) (hopen : db.IsConnected = true) :
    db.QueryEvents order filter timerange =
      .ok (grouping (db.findEvents filter timerange)
        (db.client.devices.filter (fun d =>
          decide (d.Id ∈ allowList (order (eventsByDeviceId (db.findEvents filter timerange)).keys))))) := by
  simp [Database.QueryEvents, Database.QueryEventsFrom, Database.queryDevices, hopen, grouping,
    allowList]

theorem attachDevices_eq_nil_iff (buckets : GoMap (List Event)) (devices : List Device) :
    attachDevices buckets devices = [] ↔ devices = [] := by
  constructor
  · intro h
    have hperm := (attachDevices_spec buckets devices).2.2
    rw [h] at hperm
    simpa using hperm.symm.eq_nil
  · intro h
    subst h
    rfl

theorem nodup_ids_filter (p : Device → Bool) (devices : List Device)
    (h : (devices.map Device.Id).Nodup) : ((devices.filter p).map Device.Id).Nodup :=
  List.Nodup.sublist ((List.filter_sublist devices).map Device.Id) h

/-- A fetched device list names no `Id` twice: `queryDevices` returns documents of the
collection `devices`, each at most once, and the store keeps `_id` unique. -/
theorem Fetched.nodup_ids (devices : List Device) (h : Fetched devices) :
    (devices.map Device.Id).Nodup := by
  obtain ⟨db, projectIdsCsv, deviceIdsCsv, hu, hq⟩ := h
  unfold Database.queryDevices at hq
  by_cases hopen : db.IsConnected = true
  · simp only [hopen, Bool.not_true, Bool.false_eq_true, if_false] at hq
    injection hq with hq
    subst hq
    exact nodup_ids_filter _ _ hu
  · simp [hopen] at hq

/-- The events of the pairs of the hierarchy when no two devices share an `Id`. -/
theorem pairs_grouping_of_nodup (events : List Event) (devices : List Device)
    (hD : (devices.map Device.Id).Nodup) :
    ((pairs (grouping events devices)).map Prod.snd).Perm
        (events.filter (fun e => decide (e.DeviceId ∈ devices.map Device.Id))) ∧
      ∀ x ∈ pairs (grouping events devices),
        x.1 ∈ devices ∧ x.2 ∈ events ∧ x.2.DeviceId = x.1.Id := by
  constructor
  · exact (map_snd_pairs_grouping events devices).trans
      (flatMap_filter_perm events (devices.map Device.Id) hD)
  · intro x hx
    have hx' := (pairs_grouping events devices).mem_iff.1 hx
    simp only [List.mem_flatMap, List.mem_map, List.mem_filter, decide_eq_true_eq] at hx'
    obtain ⟨d, hd, e, ⟨he, hid⟩, rfl⟩ := hx'
    exact ⟨hd, he, hid⟩

/-- **C1.** For every event list and every fetched device list, the events of the
(device, event) pairs of the hierarchy the grouping step of `QueryEvents` builds are,
counted with multiplicity, exactly the events of the list whose `DeviceId` is the `Id` of a
fetched device, so no event appears twice; and every pair joins a fetched device with an
event of the list that carries the device's `Id`. -/
theorem grouping_pairs_exact (events : List Event) (devices : List Device)
    (hD : Fetched devices) :
    ((pairs (grouping events devices)).map Prod.snd).Perm
        (events.filter (fun e => decide (e.DeviceId ∈ devices.map Device.Id))) ∧
      (∀ e, ((pairs (grouping events devices)).map Prod.snd).count e =
        (events.filter (fun e => decide (e.DeviceId ∈ devices.map Device.Id))).count e) ∧
      ∀ x ∈ pairs (grouping events devices),
        x.1 ∈ devices ∧ x.2 ∈ events ∧ x.2.DeviceId = x.1.Id := by
  have h := pairs_grouping_of_nodup events devices (Fetched.nodup_ids devices hD)
  exact ⟨h.1, fun e => h.1.count_eq e, h.2⟩

/-- The scenario: its two devices are what `queryDevices` fetches from `exampleDb`, and the
events of the pairs are the three events of the scenario. -/
theorem grouping_pairs_exact_witness :
    Fetched scenarioDevices ∧
      ((pairs (grouping scenarioEvents scenarioDevices)).map Prod.snd).Perm
        (scenarioEvents.filter (fun e => decide (e.DeviceId ∈ scenarioDevices.map Device.Id))) :=
  ⟨⟨exampleDb, none, none, by decide, rfl⟩,
    (grouping_pairs_exact scenarioEvents scenarioDevices
      ⟨exampleDb, none, none, by decide, rfl⟩).1⟩

/-- The identifiers of the hierarchy when no two devices share an `Id`. -/
theorem grouping_nodup_of_nodup (events : List Event) (devices : List Device)
    (hD : (devices.map Device.Id).Nodup) :
    ((grouping events devices).map (fun p => p.Project.Id)).Nodup ∧
      (((grouping events devices).flatMap ProjectWithDevices.Devices).map
          (fun d => d.Device.Id)).Nodup ∧
      ∀ p ∈ grouping events devices, (p.Devices.map (fun d => d.Device.Id)).Nodup := by
  have hspec := attachDevices_spec (eventsByDeviceId events) devices
  have hall : (((grouping events devices).flatMap ProjectWithDevices.Devices).map
      (fun d => d.Device.Id)).Nodup := by
    have hperm := hspec.2.2.map (fun d : DeviceWithEvents => d.Device.Id)
    rw [List.map_map] at hperm
    exact hperm.nodup_iff.2 hD
  refine ⟨hspec.1, hall, ?_⟩
  intro p hp
  rw [List.map_flatMap, List.nodup_flatMap] at hall
  exact hall.1 p hp

/-- **C8.** For every event list and every fetched device list, the project list the
grouping of `QueryEvents` returns holds no two entries with the same project `Id`, and no
device `Id` occurs twice in the result, so none occurs twice in the device list of a
project. -/
theorem grouping_no_duplicate_ids (events : List Event) (devices : List Device)
    (hD : Fetched devices) :
    ((grouping events devices).map (fun p => p.Project.Id)).Nodup ∧
      (((grouping events devices).flatMap ProjectWithDevices.Devices).map
          (fun d => d.Device.Id)).Nodup ∧
      ∀ p ∈ grouping events devices, (p.Devices.map (fun d => d.Device.Id)).Nodup :=
  grouping_nodup_of_nodup events devices (Fetched.nodup_ids devices hD)

/-- The scenario: its devices are fetched from `exampleDb`, and neither the project
identifiers nor the device identifiers of the hierarchy repeat. -/
theorem grouping_no_duplicate_ids_witness :
    Fetched scenarioDevices ∧
      ((grouping scenarioEvents scenarioDevices).map (fun p => p.Project.Id)).Nodup ∧
      (((grouping scenarioEvents scenarioDevices).flatMap ProjectWithDevices.Devices).map
        (fun d => d.Device.Id)).Nodup :=
  ⟨⟨exampleDb, none, none, by decide, rfl⟩,
    (grouping_no_duplicate_ids scenarioEvents scenarioDevices
      ⟨exampleDb, none, none, by decide, rfl⟩).1,
    (grouping_no_duplicate_ids scenarioEvents scenarioDevices
      ⟨exampleDb, none, none, by decide, rfl⟩).2.1⟩

/-- The same through the method: whatever `QueryEvents` returns on a store that keeps the
key constraint holds no project `Id` twice and, in no project, a device `Id` twice. -/
theorem QueryEvents_no_duplicate_ids (db : Database) (order : List String → List String)
    (filter : Filter) (timerange : TimeRange) (projects : List ProjectWithDevices)
    (hu : db.client.uniqueIds) (h : db.QueryEvents order filter timerange = .ok projects) :
    (projects.map (fun p => p.Project.Id)).Nodup ∧
      ∀ p ∈ projects, (p.Devices.map (fun d => d.Device.Id)).Nodup := by
  by_cases hopen : db.IsConnected = true
  · rw [QueryEvents_eq_grouping db order filter timerange hopen] at h
    injection h with h
    subst h
    exact ⟨(grouping_nodup_of_nodup _ _ (nodup_ids_filter _ _ hu)).1,
      (grouping_nodup_of_nodup _ _ (nodup_ids_filter _ _ hu)).2.2⟩
  · simp [Database.QueryEvents, hopen] at h

/-- **C9, as the code has it.** When the event query selects no events, an open store
answers `QueryEvents` with the grouping of the devices whose `Id` is the empty text: the
allow-list handed to the device fetch is the single empty identifier, so the project list is
empty exactly when no device of the store has the empty text as its `Id`. -/
theorem QueryEvents_no_events (db : Database) (order : List String → List String)
    (filter : Filter) (timerange : TimeRange) (hopen : db.IsConnected = true)
    (horder : ∀ l, (order l).Perm l) (hnone : db.findEvents filter timerange = []) :
    allowList (order (eventsByDeviceId (db.findEvents filter timerange)).keys) = [""] ∧
      db.QueryEvents order filter timerange =
        .ok (attachDevices [] (db.client.devices.filter (fun d => decide (d.Id = "")))) ∧
      (db.QueryEvents order filter timerange = .ok [] ↔ ∀ d ∈ db.client.devices, d.Id ≠ "") := by
  have hkeys : order (eventsByDeviceId (db.findEvents filter timerange)).keys = [] := by
    rw [hnone]
    exact (horder []).eq_nil
  have hallow : allowList (order (eventsByDeviceId (db.findEvents filter timerange)).keys) =
      [""] := by
    rw [hkeys]; exact allowList_nil
  have heq : db.QueryEvents order filter timerange =
      .ok (attachDevices [] (db.client.devices.filter (fun d => decide (d.Id = "")))) := by
    rw [QueryEvents_eq_grouping db order filter timerange hopen, hallow, hnone]
    simp [grouping, eventsByDeviceId]
  refine ⟨hallow, heq, ?_⟩
  rw [heq]
  constructor
  · intro h d hd hid
    have hnil : attachDevices [] (db.client.devices.filter (fun d => decide (d.Id = ""))) = [] := by
      simpa using h
    rw [attachDevices_eq_nil_iff, List.filter_eq_nil_iff] at hnil
    exact hnil d hd (by simpa using hid)
  · intro h
    have hnil : db.client.devices.filter (fun d => decide (d.Id = "")) = [] := by
      rw [List.filter_eq_nil_iff]
      intro d hd
      simpa using h d hd
    rw [hnil]
    rfl

/-- The store `exampleDb` and a window before all its events: no event is found, no device
has the empty identifier, and the project list is empty. -/
theorem QueryEvents_no_events_witness :
    exampleDb.IsConnected = true ∧ exampleDb.findEvents exampleFilter earlyWindow = [] ∧
      (exampleDb.QueryEvents id exampleFilter earlyWindow =
        .ok (attachDevices [] (exampleDb.client.devices.filter (fun d => decide (d.Id = ""))))) :=
  ⟨by decide, by decide,
    (QueryEvents_no_events exampleDb id exampleFilter earlyWindow (by decide)
      (fun l => List.Perm.refl l) (by decide)).2.1⟩

/-- **C9, as stated, fails.** The store `ghostDb` holds no events and a device whose `Id` is
the empty text: the event query selects nothing, and `QueryEvents` fetches that device and
returns a project list holding it. -/
theorem QueryEvents_no_events_ghost_device :
    ghostDb.findEvents exampleFilter exampleWindow = [] ∧
      ghostDb.QueryEvents id exampleFilter exampleWindow =
        .ok [{ Project := ⟨"P1", "P1", "Org"⟩,
               Devices := [{ Device := mkDevice "" "P1" "ghost", Events := [] }] }] ∧
      ghostDb.QueryEvents id exampleFilter exampleWindow ≠ .ok [] := by
  have h2 : ghostDb.QueryEvents id exampleFilter exampleWindow =
        .ok [{ Project := ⟨"P1", "P1", "Org"⟩,
               Devices := [{ Device := mkDevice "" "P1" "ghost", Events := [] }] }] := by rfl
  refine ⟨by decide, h2, ?_⟩
  intro h
  rw [h2] at h
  simp at h

/-- **C10, as the code has it.** For a non-empty event list in which no `DeviceId` holds a
comma, the allow-list handed to the device fetch is, in whatever order the bucket map is
ranged over, that order of the map keys itself: it holds no identifier twice and holds
exactly the `DeviceId`s that occur in the event list. -/
theorem allowList_exact (events : List Event) (keys : List String)
    (hkeys : keys.Perm (eventsByDeviceId events).keys) (hne : events ≠ [])
    (hcomma : ∀ e ∈ events, ',' ∉ e.DeviceId.data) :
    allowList keys = keys ∧ (allowList keys).Nodup ∧
      ∀ id, id ∈ allowList keys ↔ ∃ e ∈ events, e.DeviceId = id := by
  obtain ⟨hnodup, hmem⟩ := keys_eventsByDeviceId events
  have hk : ∀ id, id ∈ keys ↔ ∃ e ∈ events, e.DeviceId = id := fun id =>
    hkeys.mem_iff.trans (hmem id)
  have hkne : keys ≠ [] := by
    obtain ⟨e, es, rfl⟩ := List.exists_cons_of_ne_nil hne
    exact List.ne_nil_of_mem ((hk e.DeviceId).2 ⟨e, List.mem_cons_self _ _, rfl⟩)
  have heq : allowList keys = keys := by
    refine allowList_eq keys hkne ?_
    intro k hkmem
    obtain ⟨e, he, rfl⟩ := (hk k).1 hkmem
    exact hcomma e he
  rw [heq]
  exact ⟨rfl, hkeys.nodup_iff.2 hnodup, hk⟩

/-- The scenario: its events name the devices `A` and `B`, and so does the allow-list, in
the order of the map and in the opposite order. -/
theorem allowList_exact_witness :
    scenarioEvents ≠ [] ∧ (eventsByDeviceId scenarioEvents).keys = ["A", "B"] ∧
      allowList ["B", "A"] = ["B", "A"] :=
  ⟨by decide, by decide,
    (allowList_exact scenarioEvents ["B", "A"] (by decide) (by decide) (by decide)).1⟩

/-- **C10, as stated, fails.** The single event of `commaEvents` names the device `a,b`; the
allow-list handed to the device fetch is `a`, `b`, which holds two identifiers that occur in
no event and does not hold the one that does. -/
theorem allowList_splits_comma :
    commaEvents ≠ [] ∧ (eventsByDeviceId commaEvents).keys = ["a,b"] ∧
      allowList (eventsByDeviceId commaEvents).keys = ["a", "b"] ∧
      "a,b" ∉ allowList (eventsByDeviceId commaEvents).keys ∧
      "a" ∈ allowList (eventsByDeviceId commaEvents).keys := by
  decide

/-! ## The timestamp condition of `QueryEvents` -/

/-- **C2, at a failing input.** The instants `12:00:00`, `12:00:00.5` and `12:00:01` of one
day are in order and are formatted as `…T12:00:00Z`, `…T12:00:00.5Z` and `…T12:00:01Z`.  As
texts the second is below the first (a point comes before `Z`), so the event stamped
exactly `12:00:00.5` is selected for the window from `12:00:00.5` to `12:00:01` and for
neither the window from `12:00:00` to `12:00:00.5` nor the window from `12:00:00` to
`12:00:01`: the two adjacent windows together select an event the joined window leaves out. -/
theorem selectWindow_boundary_event :
    instant0.le instant1 ∧ instant1.le instant2 ∧
      instant0.Format = "2021-05-16T12:00:00Z" ∧
      instant1.Format = "2021-05-16T12:00:00.5Z" ∧
      instant2.Format = "2021-05-16T12:00:01Z" ∧
      boundaryDocs.map StoredEvent.timestamp = [instant1.Format] ∧
      textLt instant1.Format.data instant0.Format.data = true ∧
      selectWindow ⟨instant0, instant1⟩ boundaryDocs = [] ∧
      selectWindow ⟨instant1, instant2⟩ boundaryDocs = boundaryDocs ∧
      selectWindow ⟨instant0, instant2⟩ boundaryDocs = [] ∧
      selectWindow ⟨instant0, instant1⟩ boundaryDocs ++ selectWindow ⟨instant1, instant2⟩ boundaryDocs ≠
        selectWindow ⟨instant0, instant2⟩ boundaryDocs := by
  decide

/-- The same defect seen from `QueryEvents`: the window from `11:59` to `12:00` of the store
`exampleDb` yields the event stamped `12:00:00.5`, which is after the window. -/
theorem findEvents_after_window :
    (exampleDb.findEvents exampleFilter ⟨exampleStart.Add (-Minute), exampleStart⟩).map
        (fun e => e.Id) = ["e2"] ∧
      (exampleDb.findEvents exampleFilter ⟨exampleStart.Add (-Minute), exampleStart⟩).map
        (fun e => decide (exampleStart.le e.Timestamp)) = [true] := by
  decide

/-! ## The frame handed to the sender -/

theorem foldl_deviceFrames (project : Project) (devices : List DeviceWithEvents)
    (frame : Option Frame) :
    devices.foldl (fun _ device => some (deviceToFrame project device)) frame =
      ((devices.map (fun d => deviceToFrame project d)).getLast?).or frame := by
  induction devices generalizing frame with
  | nil => simp
  | cons d ds ih =>
    rw [List.foldl_cons, ih]
    cases hds : (ds.map (fun d => deviceToFrame project d)).getLast? with
    | none =>
      rw [List.getLast?_eq_none_iff] at hds
      simp [hds]
    | some f => simp [List.getLast?_cons, hds]

theorem foldl_projectFrames (projects : List ProjectWithDevices) (frame : Option Frame) :
    projects.foldl
        (fun frame project =>
          project.Devices.foldl (fun _ device => some (deviceToFrame project.Project device))
            frame)
        frame =
      ((computedFrames projects).getLast?).or frame := by
  induction projects generalizing frame with
  | nil => simp [computedFrames]
  | cons p ps ih =>
    rw [List.foldl_cons, ih, foldl_deviceFrames]
    have hcons : computedFrames (p :: ps) =
        p.Devices.map (fun d => deviceToFrame p.Project d) ++ computedFrames ps := by
      simp [computedFrames]
    rw [hcons, List.getLast?_append]
    cases (computedFrames ps).getLast? <;> simp

/-- The frame left after the loops is the last of the frames computed, `nil` when none is. -/
theorem lastFrame_eq_getLast? (projects : List ProjectWithDevices) :
    lastFrame projects = (computedFrames projects).getLast? := by
  unfold lastFrame
  rw [foldl_projectFrames]
  cases (computedFrames projects).getLast? <;> rfl

theorem attachStep_devices_ne_nil (buckets : GoMap (List Event)) (st : Grouping)
    (device : Device) (h : ∀ p ∈ st.projects, p.Devices ≠ []) :
    ∀ p ∈ (attachStep buckets st device).projects, p.Devices ≠ [] := by
  cases hg : st.projectById.get? device.ProjectId with
  | some i =>
    rw [attachStep_some buckets st device i hg]
    intro p hp
    rcases mem_modify _ _ _ _ hp with hp | ⟨q, _, rfl⟩
    · exact h p hp
    · simp [pushDevice]
  | none =>
    rw [attachStep_none buckets st device hg]
    intro p hp
    simp only [List.mem_append, List.mem_singleton] at hp
    rcases hp with hp | rfl
    · exact h p hp
    · simp

theorem foldl_attachStep_devices_ne_nil (buckets : GoMap (List Event)) (devices : List Device)
    (st : Grouping) (h : ∀ p ∈ st.projects, p.Devices ≠ []) :
    ∀ p ∈ (devices.foldl (attachStep buckets) st).projects, p.Devices ≠ [] := by
  induction devices generalizing st with
  | nil => exact h
  | cons d ds ih =>
    rw [List.foldl_cons]
    exact ih _ (attachStep_devices_ne_nil buckets st d h)

/-- Every project of a result of `QueryEvents` holds a device. -/
theorem QueryEvents_devices_ne_nil (db : Database) (order : List String → List String)
    (filter : Filter) (timerange : TimeRange) (projects : List ProjectWithDevices)
    (h : db.QueryEvents order filter timerange = .ok projects) :
    ∀ p ∈ projects, p.Devices ≠ [] := by
  by_cases hopen : db.IsConnected = true
  · rw [QueryEvents_eq_grouping db order filter timerange hopen] at h
    injection h with h
    subst h
    exact foldl_attachStep_devices_ne_nil _ _ _ (by simp)
  · simp [Database.QueryEvents, hopen] at h

/-- What a tick of `RunStream` whose query succeeds hands to the sender: the frame the
loops leave, which is the last of the frames computed, so `deviceToFrame` of the last device
of the last project when that project has a device, the frames computed before it being
dropped; when no frame is computed the frame is `nil` and the send panics. -/
theorem onTick_hands_last_frame (filter : Filter) (lastFetch : Time) (tick : Tick)
    (projects : List ProjectWithDevices)
    (hq : tick.query filter ⟨lastFetch, tick.now.Add Minute⟩ = .ok projects) :
    (∀ frame, lastFrame projects = some frame →
        (onTick filter lastFetch tick).outcome = .sent frame ∨
          ∃ err, (onTick filter lastFetch tick).outcome = .sendError frame err) ∧
      (lastFrame projects = none → (onTick filter lastFetch tick).outcome = .sendPanic) ∧
      lastFrame projects = (computedFrames projects).getLast? ∧
      (∀ init p ds d, projects = init ++ [p] → p.Devices = ds ++ [d] →
        lastFrame projects = some (deviceToFrame p.Project d)) ∧
      ((∀ p ∈ projects, p.Devices = []) → lastFrame projects = none) := by
  refine ⟨?_, ?_, lastFrame_eq_getLast? projects, ?_, ?_⟩
  · intro frame hf
    cases hs : tick.send frame with
    | none =>
      rw [onTick_sent filter lastFetch tick projects frame hq hf hs]
      exact Or.inl rfl
    | some err =>
      rw [onTick_sendError filter lastFetch tick projects frame err hq hf hs]
      exact Or.inr ⟨err, rfl⟩
  · intro hf
    rw [onTick_sendPanic filter lastFetch tick projects hq hf]
  · intro init p ds d hp hd
    rw [lastFrame_eq_getLast?, hp]
    simp only [computedFrames, List.flatMap_append, List.flatMap_cons, List.flatMap_nil,
      List.append_nil, hd, List.map_append, List.map_cons, List.map_nil]
    rw [← List.append_assoc, List.getLast?_concat]
  · intro hempty
    rw [lastFrame_eq_getLast?, List.getLast?_eq_none_iff]
    unfold computedFrames
    rw [List.flatMap_eq_nil_iff]
    intro p hp
    simp [hempty p hp]

/-- A tick whose query returns the scenario's hierarchy: the frame handed to the sender is
that of device `B`, the last one; the frame of device `A` is computed and dropped. -/
theorem onTick_hands_last_frame_scenario :
    (scenarioTick 5).query exampleFilter ⟨exampleStart, (scenarioTick 5).now.Add Minute⟩ =
        .ok (grouping scenarioEvents scenarioDevices) ∧
      computedFrames (grouping scenarioEvents scenarioDevices) =
        [deviceToFrame ⟨"P1", "P1", "Org"⟩
           ⟨mkDevice "A" "P1" "kitchen", scenarioEvents.take 2⟩,
         deviceToFrame ⟨"P1", "P1", "Org"⟩
           ⟨mkDevice "B" "P1" "hall", scenarioEvents.drop 2⟩] ∧
      lastFrame (grouping scenarioEvents scenarioDevices) =
        some (deviceToFrame ⟨"P1", "P1", "Org"⟩
          ⟨mkDevice "B" "P1" "hall", scenarioEvents.drop 2⟩) ∧
      (onTick exampleFilter exampleStart (scenarioTick 5)).outcome =
        .sent (deviceToFrame ⟨"P1", "P1", "Org"⟩
          ⟨mkDevice "B" "P1" "hall", scenarioEvents.drop 2⟩) :=
  ⟨rfl, by decide,
    (onTick_hands_last_frame exampleFilter exampleStart (scenarioTick 5)
      (grouping scenarioEvents scenarioDevices) rfl).2.2.2.1 []
      ⟨⟨"P1", "P1", "Org"⟩,
        [⟨mkDevice "A" "P1" "kitchen", scenarioEvents.take 2⟩,
         ⟨mkDevice "B" "P1" "hall", scenarioEvents.drop 2⟩]⟩
      [⟨mkDevice "A" "P1" "kitchen", scenarioEvents.take 2⟩]
      ⟨mkDevice "B" "P1" "hall", scenarioEvents.drop 2⟩ (by decide) (by decide),
    by decide⟩

/-- **C11, at a failing input.** A stream of device `A` on `exampleDb` that starts a minute
after all its events, with the timer firing five and ten seconds later.  On the first tick
the query succeeds with an empty project list, so no frame is computed and `frame` is still
`nil` when `SendFrame` is called: the sender is handed no projected series, the call panics,
and the second firing is never served. -/
theorem RunStream_nil_frame_panics :
    RunStream "stream/device/A" quietStart
        [.timer (exampleTick 1621166465000000000 false),
         .timer (exampleTick 1621166470000000000 false)] =
        some [quietTick] ∧
      exampleDb.QueryEvents id exampleFilter quietTick.window = .ok [] ∧
      computedFrames [] = [] ∧
      lastFrame [] = none ∧
      quietTick.outcome = .sendPanic :=
  ⟨by decide, rfl, rfl, rfl, by decide⟩

end Exprom
